import Mathlib

/-!
Shallow embedding of the `radio-thingy` repository (Python) in Lean 4,
used to settle the claims about its specification.

Conventions of the embedding:
* Python `float` values are modelled as `ℚ` (exact arithmetic); Python `int`
  as `ℤ`.  `int(x)` applied to a non-negative float is `Int.floor`; the general
  truncation toward zero is `pyInt`.
* SQLite rows returned by `helpers.get_station_state` are modelled as
  association lists of `(column name, value)` pairs, exactly the column list of
  the function's SELECT statement; `row["col"]` is `rowGet`, which raises
  (`Except.error`) on a missing key, as `sqlite3.Row` does.
* Python keyword-argument calls to `helpers.set_station_state` are modelled by
  checking the caller's keyword list against the function's parameter list; a
  keyword outside the list raises `TypeError`, as Python does.
* `ORDER BY RANDOM()` picks, `random.Random` draws and shuffles are supplied by
  an explicit `Oracles` record of choice functions / draw values.
-/

namespace Radio

/-! ## player.py — volume arithmetic -/

/-- `player.clampi(v, lo=0, hi=100)`: `max(lo, min(hi, int(v)))` at the default
bounds (the only bounds the program uses). -/
def clampi (v : ℤ) : ℤ := max 0 (min 100 v)

/-- `player.scale(vol_0_100, master_0_100)`: `int(vol * (master / 100.0))`.
Both inputs are clamped; the product of the clamped values is divided by 100
and truncated toward zero (`int()` truncates; on these non-negative operands
truncation is `Int.tdiv`, and the binary floating point evaluation agrees with
the exact quotient's truncation except for a one-off rounding at a handful of
input pairs, noted where relevant). -/
def scale (v m : ℤ) : ℤ := (clampi v * clampi m).tdiv 100

/-- The spec's version of `scale`, modelled from the spec's words:
`scale(v, m) = round(clamp(v) · clamp(m) / 100)`. -/
def scaleSpecRound (v m : ℤ) : ℤ := round ((clampi v * clampi m : ℚ) / 100)

/-- Python `int()` on a float: truncation toward zero. -/
def pyInt (q : ℚ) : ℤ := if 0 ≤ q then ⌊q⌋ else ⌈q⌉

/-- `Player.set_mix`: stores `clampi(base_music_vol_0_100)` in
`self._base_music_vol` (the volumes are then recomputed by `_apply_volumes`). -/
def set_mix (base_music_vol : ℤ) : ℤ := clampi base_music_vol

/-- The three per-stream volumes assigned by `Player._apply_volumes`. -/
structure Volumes where
  noise : ℤ
  music : ℤ
  overlay : ℤ
deriving Repr, DecidableEq

/-- `Player._apply_volumes`: recompute the three stream volumes from the
configured master volume, the stored `_base_music_vol` and the current
`_duck_factor`. -/
def apply_volumes (master_cfg : ℤ) (base_stored : ℤ) (duck_factor : ℚ) : Volumes :=
  let master := clampi master_cfg
  let base := clampi base_stored
  let noise_vol := clampi (100 - base)
  let eff := pyInt ((base : ℚ) * duck_factor)
  { noise := scale noise_vol master
    music := scale (clampi eff) master
    overlay := scale 100 master }

/-! Helper lemmas about `clampi` and `scale`. -/

theorem clampi_nonneg (v : ℤ) : 0 ≤ clampi v := le_max_left 0 _

theorem clampi_le_100 (v : ℤ) : clampi v ≤ 100 := by
  unfold clampi; omega

theorem scale_eq_ediv (v m : ℤ) : scale v m = (clampi v * clampi m) / 100 := by
  unfold scale
  exact Int.tdiv_eq_ediv (mul_nonneg (clampi_nonneg v) (clampi_nonneg m)) (by norm_num)

theorem scale_bounds (v m : ℤ) : 0 ≤ scale v m ∧ scale v m ≤ 100 := by
  rw [scale_eq_ediv]
  have h1 := clampi_nonneg v
  have h2 := clampi_le_100 v
  have h3 := clampi_nonneg m
  have h4 := clampi_le_100 m
  have hmul : clampi v * clampi m ≤ 100 * 100 :=
    mul_le_mul h2 h4 h3 (by norm_num)
  have hmul0 : 0 ≤ clampi v * clampi m := mul_nonneg h1 h3
  omega

theorem clampi_idem_sub (v : ℤ) : clampi (100 - clampi v) = 100 - clampi v := by
  unfold clampi; omega

theorem clampi_clampi (v : ℤ) : clampi (clampi v) = clampi v := by
  unfold clampi; omega

theorem scale_congr {a b m m' : ℤ} (h : clampi a = clampi b)
    (h' : clampi m = clampi m') : scale a m = scale b m' := by
  unfold scale; rw [h, h']

/-- C4 counterexample: at `v = 3, m = 50` the code returns
`int(3 * 0.5) = int(1.5) = 1` (exact in binary floating point), while the
spec's `round(3 · 50 / 100) = round(1.5) = 2`. -/
theorem scale_truncates_not_rounds_cex :
    scale 3 50 = 1 ∧ scaleSpecRound 3 50 = 2 ∧ scale 3 50 ≠ scaleSpecRound 3 50 := by
  have h1 : scale 3 50 = 1 := by decide
  have h2 : scaleSpecRound 3 50 = 2 := by
    unfold scaleSpecRound clampi
    norm_num [round_eq]
  exact ⟨h1, h2, by rw [h1, h2]; decide⟩

/-- C4 (amended): `scale` clamps both inputs to `[0, 100]` and returns the
truncation (floor, both factors being non-negative) of
`clamp(v) · clamp(m) / 100`, not the rounding; the result is characterised as
the unique integer `q` with `100·q ≤ clamp(v)·clamp(m) < 100·(q+1)`, and lies
in `[0, 100]`. -/
theorem scale_is_floor_of_clamped_product (v m : ℤ) :
    0 ≤ scale v m ∧ scale v m ≤ 100 ∧
    100 * scale v m ≤ clampi v * clampi m ∧
    clampi v * clampi m < 100 * (scale v m + 1) := by
  obtain ⟨h0, h100⟩ := scale_bounds v m
  rw [scale_eq_ediv] at *
  have hmul0 : 0 ≤ clampi v * clampi m :=
    mul_nonneg (clampi_nonneg v) (clampi_nonneg m)
  refine ⟨h0, h100, ?_, ?_⟩ <;> omega

/-- C4 witness: the amended characterisation evaluated at `v = 99, m = 50`. -/
theorem scale_is_floor_witness :
    0 ≤ scale 99 50 ∧ scale 99 50 ≤ 100 ∧
    100 * scale 99 50 ≤ clampi 99 * clampi 50 ∧
    clampi 99 * clampi 50 < 100 * (scale 99 50 + 1) :=
  scale_is_floor_of_clamped_product 99 50

/-- C9: for every integer `base_music_vol` handed to `set_mix` (also outside
`[0, 100]`), every configured `master_vol` and every duck factor in `[0, 1]`,
the volumes `_apply_volumes` assigns to the noise, music and overlay streams
are integers in `[0, 100]`; the noise volume is `scale(100 − clamped base,
master)` and the music volume is `scale` of the truncated product of the
clamped base with the duck factor. -/
theorem apply_volumes_in_range (v master : ℤ) (duck : ℚ)
    (hd0 : 0 ≤ duck) (hd1 : duck ≤ 1) :
    (0 ≤ (apply_volumes master (set_mix v) duck).noise ∧
      (apply_volumes master (set_mix v) duck).noise ≤ 100) ∧
    (0 ≤ (apply_volumes master (set_mix v) duck).music ∧
      (apply_volumes master (set_mix v) duck).music ≤ 100) ∧
    (0 ≤ (apply_volumes master (set_mix v) duck).overlay ∧
      (apply_volumes master (set_mix v) duck).overlay ≤ 100) ∧
    (apply_volumes master (set_mix v) duck).noise = scale (100 - clampi v) master ∧
    (apply_volumes master (set_mix v) duck).music
      = scale (clampi (pyInt ((clampi v : ℚ) * duck))) master := by
  have hA : apply_volumes master (set_mix v) duck =
      ⟨scale (clampi (100 - clampi (set_mix v))) (clampi master),
       scale (clampi (pyInt ((clampi (set_mix v) : ℚ) * duck))) (clampi master),
       scale 100 (clampi master)⟩ := rfl
  rw [hA]
  have hmix : clampi (set_mix v) = clampi v := clampi_clampi v
  refine ⟨scale_bounds _ _, scale_bounds _ _, scale_bounds _ _, ?_, ?_⟩
  · show scale (clampi (100 - clampi (set_mix v))) (clampi master) = _
    exact scale_congr (by rw [clampi_clampi, hmix]) (clampi_clampi master)
  · show scale (clampi (pyInt ((clampi (set_mix v) : ℚ) * duck))) (clampi master) = _
    rw [hmix]
    exact scale_congr rfl (clampi_clampi master)

/-- C9 witness: the invariant evaluated at `base_music_vol = 150` (out of
range), `master_vol = 60`, `duck_factor = 1/2`. -/
theorem apply_volumes_in_range_witness :
    0 ≤ (1/2 : ℚ) ∧ (1/2 : ℚ) ≤ 1 ∧
    ((0 ≤ (apply_volumes 60 (set_mix 150) (1/2)).noise ∧
       (apply_volumes 60 (set_mix 150) (1/2)).noise ≤ 100) ∧
     (0 ≤ (apply_volumes 60 (set_mix 150) (1/2)).music ∧
       (apply_volumes 60 (set_mix 150) (1/2)).music ≤ 100) ∧
     (0 ≤ (apply_volumes 60 (set_mix 150) (1/2)).overlay ∧
       (apply_volumes 60 (set_mix 150) (1/2)).overlay ≤ 100) ∧
     (apply_volumes 60 (set_mix 150) (1/2)).noise = scale (100 - clampi 150) 60 ∧
     (apply_volumes 60 (set_mix 150) (1/2)).music
       = scale (clampi (pyInt ((clampi 150 : ℚ) * (1/2)))) 60) :=
  ⟨by norm_num, by norm_num,
    apply_volumes_in_range 150 60 (1/2) (by norm_num) (by norm_num)⟩

/-! ## radio.py — dial: signal gain and nearest-station mapping -/

/-- `radio.gain_from_delta(delta, lock_window, fade_window)`. -/
def gain_from_delta (delta lock_window fade_window : ℚ) : ℚ :=
  if delta ≤ lock_window then 1
  else if delta ≤ lock_window + fade_window then
    1 - (delta - lock_window) / fade_window
  else 0

/-- For a positive fade window, `gain_from_delta` is the clamp to `[0, 1]` of
the affine map `1 - (delta - lock)/fade`. -/
theorem gain_from_delta_eq_clamp (delta lock fade : ℚ) (hf : 0 < fade) :
    gain_from_delta delta lock fade = max 0 (min 1 (1 - (delta - lock) / fade)) := by
  unfold gain_from_delta
  rcases le_or_lt delta lock with h | h
  · rw [if_pos h]
    have h1 : (delta - lock) / fade ≤ 0 :=
      div_nonpos_of_nonpos_of_nonneg (by linarith) hf.le
    have : (1 : ℚ) ≤ 1 - (delta - lock) / fade := by linarith
    rw [min_eq_left this, max_eq_right (by norm_num)]
  · rw [if_neg (not_le.mpr h)]
    rcases le_or_lt delta (lock + fade) with h2 | h2
    · rw [if_pos h2]
      have hlo : 0 ≤ 1 - (delta - lock) / fade := by
        have : (delta - lock) / fade ≤ 1 := by
          rw [div_le_one hf]; linarith
        linarith
      have hhi : 1 - (delta - lock) / fade ≤ 1 := by
        have : 0 ≤ (delta - lock) / fade := div_nonneg (by linarith) hf.le
        linarith
      rw [min_eq_right hhi, max_eq_right hlo]
    · rw [if_neg (not_le.mpr h2)]
      have : 1 < (delta - lock) / fade := by
        rw [lt_div_iff hf]; linarith
      have h3 : 1 - (delta - lock) / fade < 0 := by linarith
      rw [min_eq_right (by linarith), max_eq_left (by linarith)]

theorem clamp01_lipschitz (x y : ℚ) :
    |max 0 (min 1 x) - max 0 (min 1 y)| ≤ |x - y| := by
  have habs : ∀ a b : ℚ, |(-a) - (-b)| = |a - b| := fun a b => by
    rw [show (-a) - (-b) = -(a - b) by ring, abs_neg]
  have h1 : |max 0 (min 1 x) - max 0 (min 1 y)| ≤ |min 1 x - min 1 y| := by
    simpa [max_comm] using abs_max_sub_max_le_abs (min 1 x) (min 1 y) 0
  have h2 : |min 1 x - min 1 y| ≤ |x - y| := by
    have h := abs_max_sub_max_le_abs (-x) (-y) (-1)
    rw [max_neg_neg, max_neg_neg, habs, habs, min_comm x 1, min_comm y 1] at h
    exact h
  exact h1.trans h2

/-- `gain_from_delta` is `(1/fade)`-Lipschitz in `delta` for positive fade. -/
theorem gain_from_delta_lipschitz (lock fade d e : ℚ) (hf : 0 < fade) :
    |gain_from_delta d lock fade - gain_from_delta e lock fade| ≤ |d - e| / fade := by
  rw [gain_from_delta_eq_clamp d lock fade hf, gain_from_delta_eq_clamp e lock fade hf]
  have h := clamp01_lipschitz (1 - (d - lock) / fade) (1 - (e - lock) / fade)
  have e1 : (1 - (d - lock) / fade) - (1 - (e - lock) / fade) = (e - d) / fade := by
    field_simp
  rw [e1] at h
  have e2 : |(e - d) / fade| = |d - e| / fade := by
    rw [abs_div, abs_of_pos hf, abs_sub_comm]
  rw [e2] at h
  exact h

/-- C8: for `delta ≥ 0`, `lock_window ≥ 0` and `fade_window > 0`, the gain is
1 on `delta ≤ lock_window`, is the affine `1 − (delta − lock)/fade` on
`(lock_window, lock_window + fade_window]`, is 0 from
`lock_window + fade_window` on, is monotonically non-increasing in `delta`,
and is continuous in `delta` (ε–δ form over `ℚ`). -/
theorem gain_from_delta_spec (lock fade : ℚ) (hl : 0 ≤ lock) (hf : 0 < fade) :
    (∀ d, 0 ≤ d → d ≤ lock → gain_from_delta d lock fade = 1) ∧
    (∀ d, 0 ≤ d → lock < d → d ≤ lock + fade →
      gain_from_delta d lock fade = 1 - (d - lock) / fade) ∧
    (∀ d, 0 ≤ d → lock + fade ≤ d → gain_from_delta d lock fade = 0) ∧
    (∀ d e, 0 ≤ d → d ≤ e → gain_from_delta e lock fade ≤ gain_from_delta d lock fade) ∧
    (∀ d ε, 0 ≤ d → 0 < ε → ∃ δ > 0, ∀ e, |e - d| < δ →
      |gain_from_delta e lock fade - gain_from_delta d lock fade| < ε) := by
  refine ⟨?_, ?_, ?_, ?_, ?_⟩
  · intro d _ h
    unfold gain_from_delta; rw [if_pos h]
  · intro d _ h1 h2
    unfold gain_from_delta; rw [if_neg (not_le.mpr h1), if_pos h2]
  · intro d _ h
    rcases eq_or_lt_of_le h with h | h
    · unfold gain_from_delta
      have hne : ¬ d ≤ lock := not_le.mpr (by linarith)
      rw [if_neg hne, if_pos (le_of_eq h.symm), ← h]
      field_simp
    · unfold gain_from_delta
      have hne : ¬ d ≤ lock := not_le.mpr (by linarith)
      rw [if_neg hne, if_neg (not_le.mpr h)]
  · intro d e _ hde
    rw [gain_from_delta_eq_clamp d lock fade hf, gain_from_delta_eq_clamp e lock fade hf]
    have hdiv : (d - lock) / fade ≤ (e - lock) / fade :=
      (div_le_div_right hf).mpr (by linarith)
    have : 1 - (e - lock) / fade ≤ 1 - (d - lock) / fade := by linarith
    exact max_le_max (le_refl 0) (min_le_min (le_refl 1) this)
  · intro d ε _ hε
    refine ⟨ε * fade, mul_pos hε hf, fun e he => ?_⟩
    have h := gain_from_delta_lipschitz lock fade e d hf
    calc |gain_from_delta e lock fade - gain_from_delta d lock fade|
        ≤ |e - d| / fade := h
      _ < (ε * fade) / fade := (div_lt_div_right hf).mpr he
      _ = ε := by field_simp

/-- C8 witness: the gain specification evaluated at `lock_window = 1/5`,
`fade_window = 1/2`. -/
theorem gain_from_delta_spec_witness :
    0 ≤ (1/5 : ℚ) ∧ 0 < (1/2 : ℚ) ∧
    ((∀ d, 0 ≤ d → d ≤ (1/5 : ℚ) → gain_from_delta d (1/5) (1/2) = 1) ∧
     (∀ d, 0 ≤ d → (1/5 : ℚ) < d → d ≤ 1/5 + 1/2 →
       gain_from_delta d (1/5) (1/2) = 1 - (d - 1/5) / (1/2)) ∧
     (∀ d, 0 ≤ d → (1/5 : ℚ) + 1/2 ≤ d → gain_from_delta d (1/5) (1/2) = 0) ∧
     (∀ d e, 0 ≤ d → d ≤ e →
       gain_from_delta e (1/5) (1/2) ≤ gain_from_delta d (1/5) (1/2)) ∧
     (∀ d ε, 0 ≤ d → 0 < ε → ∃ δ > 0, ∀ e, |e - d| < δ →
       |gain_from_delta e (1/5) (1/2) - gain_from_delta d (1/5) (1/2)| < ε)) :=
  ⟨by norm_num, by norm_num,
    gain_from_delta_spec (1/5) (1/2) (by norm_num) (by norm_num)⟩

/-- `radio.midpoints(sts)`: the frequencies halfway between consecutive
stations of the (frequency-sorted) list `sts` of `(name, freq)` pairs. -/
def midpoints (sts : List (String × ℚ)) : List ℚ :=
  if sts.length < 2 then []
  else (sts.zip sts.tail).map (fun p => (p.1.2 + p.2.2) / 2)

/-- The index scan of `radio.nearest_station`'s for-loop: the position of the
first midpoint with `freq < m`, if any. -/
def firstLtIdx (freq : ℚ) : List ℚ → Option ℕ
  | [] => none
  | m :: ms => if freq < m then some 0 else (firstLtIdx freq ms).map Nat.succ

/-- `radio.nearest_station(freq, sts, mids)`: `sts[0]` when there are no
midpoints, else `sts[i]` for the first `i` with `freq < mids[i]`, else the
last station. -/
def nearest_station (freq : ℚ) (sts : List (String × ℚ)) (mids : List ℚ) :
    Option (String × ℚ) :=
  if mids.isEmpty then sts.head?
  else
    match firstLtIdx freq mids with
    | some i => sts.get? i
    | none => sts.getLast?

/-- The frequency of station `i` of a station list (total, with a default for
out-of-range indices; only in-range uses occur in the theorems). -/
def fqAt (sts : List (String × ℚ)) (i : ℕ) : ℚ := (sts.getD i ("", 0)).2

theorem fqAt_eq_getElem? (sts : List (String × ℚ)) (i : ℕ) (h : i < sts.length) :
    sts[i]? = some (sts.getD i ("", 0)) := by
  rw [List.getD_eq_getElem?_getD, List.getElem?_eq_getElem h]
  rfl

theorem midpoints_length (sts : List (String × ℚ)) :
    (midpoints sts).length = sts.length - 1 := by
  unfold midpoints
  by_cases h : sts.length < 2
  · rw [if_pos h]; simp only [List.length_nil]; omega
  · rw [if_neg h]
    simp [List.length_zip, List.length_tail]

theorem midpoints_getElem? (sts : List (String × ℚ)) (i : ℕ)
    (h : i + 1 < sts.length) :
    (midpoints sts)[i]? = some ((fqAt sts i + fqAt sts (i + 1)) / 2) := by
  unfold midpoints
  rw [if_neg (by omega)]
  have h0 : i < sts.length := by omega
  have ht : i < sts.tail.length := by rw [List.length_tail]; omega
  have hz : (sts.zip sts.tail)[i]? = some (sts.getD i ("", 0), sts.getD (i+1) ("", 0)) := by
    rw [List.getElem?_zip_eq_some]
    refine ⟨fqAt_eq_getElem? sts i h0, ?_⟩
    rw [List.getElem?_tail]
    exact fqAt_eq_getElem? sts (i+1) h
  rw [List.getElem?_map, hz]
  rfl

theorem firstLtIdx_some_spec (freq : ℚ) :
    ∀ (ms : List ℚ) (i : ℕ), firstLtIdx freq ms = some i →
      (∀ y, ms[i]? = some y → freq < y) ∧
      (∀ j, j < i → ∀ y, ms[j]? = some y → y ≤ freq) := by
  intro ms
  induction ms with
  | nil => intro i h; simp [firstLtIdx] at h
  | cons m ms ih =>
    intro i h
    unfold firstLtIdx at h
    by_cases hm : freq < m
    · rw [if_pos hm] at h
      obtain rfl : i = 0 := by simpa using h.symm
      refine ⟨fun y hy => ?_, fun j hj => absurd hj (by omega)⟩
      simp at hy
      rw [← hy]
      exact hm
    · rw [if_neg hm] at h
      cases hfx : firstLtIdx freq ms with
      | none => rw [hfx] at h; simp at h
      | some k =>
        rw [hfx] at h
        simp at h
        obtain rfl : i = k + 1 := by omega
        obtain ⟨h1, h2⟩ := ih k hfx
        refine ⟨fun y hy => h1 y (by simpa using hy), fun j hj y hy => ?_⟩
        match j with
        | 0 => simp at hy; rw [← hy]; exact le_of_not_lt hm
        | Nat.succ j2 => exact h2 j2 (by omega) y (by simpa using hy)

theorem firstLtIdx_none_spec (freq : ℚ) :
    ∀ ms : List ℚ, firstLtIdx freq ms = none →
      ∀ (j : ℕ) (y : ℚ), ms[j]? = some y → y ≤ freq := by
  intro ms
  induction ms with
  | nil => intro _ j y hy; simp at hy
  | cons m ms ih =>
    intro h j y hy
    unfold firstLtIdx at h
    by_cases hm : freq < m
    · rw [if_pos hm] at h; simp at h
    · rw [if_neg hm] at h
      match j with
      | 0 => simp at hy; subst hy; exact le_of_not_lt hm
      | Nat.succ j2 =>
        have : firstLtIdx freq ms = none := by
          cases hfx : firstLtIdx freq ms with
          | none => rfl
          | some k => rw [hfx] at h; simp at h
        exact ih this j2 y (by simpa using hy)

/-- The pure index-arithmetic core of the nearest-station argmin argument:
if the chosen index `j` has the midpoint to its left at or below `freq` and
the midpoint to its right above (or at) `freq`, station `j` minimises the
distance among all stations of a strictly increasing frequency family. -/
theorem nearest_core (n : ℕ) (f : ℕ → ℚ) (freq : ℚ)
    (mono : ∀ a b, a < b → b < n → f a < f b)
    (j k : ℕ) (hj : j < n) (hk : k < n)
    (hleft : j = 0 ∨ f (j-1) + f j ≤ 2 * freq)
    (hright : j = n - 1 ∨ 2 * freq ≤ f j + f (j+1)) :
    |freq - f j| ≤ |freq - f k| := by
  rcases lt_trichotomy k j with hkj | rfl | hjk
  · have hj0 : j ≠ 0 := by omega
    have hL : f (j-1) + f j ≤ 2 * freq := by
      rcases hleft with h | h
      · exact absurd h hj0
      · exact h
    have hk1 : f k ≤ f (j-1) := by
      rcases Nat.lt_or_ge k (j-1) with h | h
      · exact (mono k (j-1) h (by omega)).le
      · have : k = j - 1 := by omega
        rw [this]
    have hkj2 : f k < f j := mono k j hkj hj
    have hj1j : f (j-1) < f j := mono (j-1) j (by omega) hj
    have hnn : 0 ≤ freq - f k := by linarith
    rw [abs_of_nonneg hnn, abs_le]
    constructor <;> linarith
  · exact le_refl _
  · have hjn : j ≠ n - 1 := by omega
    have hR : 2 * freq ≤ f j + f (j+1) := by
      rcases hright with h | h
      · exact absurd h hjn
      · exact h
    have hk1 : f (j+1) ≤ f k := by
      rcases Nat.lt_or_ge (j+1) k with h | h
      · exact (mono (j+1) k h hk).le
      · have : k = j + 1 := by omega
        rw [this]
    have hjk2 : f j < f k := mono j k hjk hk
    have hjj1 : f j < f (j+1) := mono j (j+1) (by omega) (by omega)
    have hnn : freq - f k ≤ 0 := by linarith
    rw [abs_of_nonpos hnn, abs_le]
    constructor <;> linarith

theorem firstLtIdx_lt_length (freq : ℚ) :
    ∀ (ms : List ℚ) (i : ℕ), firstLtIdx freq ms = some i → i < ms.length := by
  intro ms
  induction ms with
  | nil => intro i h; simp [firstLtIdx] at h
  | cons m ms ih =>
    intro i h
    unfold firstLtIdx at h
    by_cases hm : freq < m
    · rw [if_pos hm] at h
      simp at h
      simp only [List.length_cons]
      omega
    · rw [if_neg hm] at h
      cases hfx : firstLtIdx freq ms with
      | none => rw [hfx] at h; simp at h
      | some k =>
        rw [hfx] at h
        simp at h
        have := ih k hfx
        simp only [List.length_cons]
        omega

/-- C3: for every frequency and every non-empty station list sorted strictly
by frequency, `nearest_station` (fed the list's `midpoints`, as in
`RadioApp.tune`) returns a station of the list minimising `|freq − station.freq|`,
and when `freq` is exactly the midpoint of two adjacent stations the
higher-indexed (higher-frequency) of the two is returned. -/
theorem nearest_station_is_argmin (sts : List (String × ℚ)) (freq : ℚ)
    (hne : sts ≠ [])
    (hsort : List.Chain' (fun a b : String × ℚ => a.2 < b.2) sts) :
    ∃ s, nearest_station freq sts (midpoints sts) = some s ∧ s ∈ sts ∧
      (∀ t ∈ sts, |freq - s.2| ≤ |freq - t.2|) ∧
      (∀ i : ℕ, i + 1 < sts.length →
        freq = (fqAt sts i + fqAt sts (i + 1)) / 2 → sts[i+1]? = some s) := by
  have hn : 0 < sts.length := List.length_pos.mpr hne
  have hfq : ∀ i (h : i < sts.length), fqAt sts i = sts[i].2 := by
    intro i h
    unfold fqAt
    rw [List.getD_eq_getElem?_getD, List.getElem?_eq_getElem h]
    rfl
  haveI : IsTrans (String × ℚ) (fun a b => a.2 < b.2) :=
    ⟨fun _ _ _ h1 h2 => lt_trans h1 h2⟩
  have hpw := List.chain'_iff_pairwise.mp hsort
  have hmono : ∀ a b, a < b → b < sts.length → fqAt sts a < fqAt sts b := by
    intro a b hab hb
    rw [hfq a (by omega), hfq b hb]
    exact List.pairwise_iff_getElem.mp hpw a b (by omega) hb hab
  have hMget : ∀ i, i + 1 < sts.length →
      (midpoints sts)[i]? = some ((fqAt sts i + fqAt sts (i + 1)) / 2) :=
    fun i h => midpoints_getElem? sts i h
  have hMlt : ∀ a b, a < b → b + 1 < sts.length →
      (fqAt sts a + fqAt sts (a + 1)) / 2 < (fqAt sts b + fqAt sts (b + 1)) / 2 := by
    intro a b hab hb
    have h1 : fqAt sts a < fqAt sts b := hmono a b hab (by omega)
    have h2 : fqAt sts (a+1) < fqAt sts (b+1) := hmono (a+1) (b+1) (by omega) (by omega)
    linarith
  by_cases h2 : sts.length < 2
  · -- a single station: no midpoints, the head is returned
    have hlen : sts.length = 1 := by omega
    obtain ⟨a, rfl⟩ := List.length_eq_one.mp hlen
    refine ⟨a, ?_, by simp, ?_, ?_⟩
    · unfold nearest_station
      rw [if_pos (by simp [midpoints])]
      rfl
    · intro t ht
      obtain rfl : t = a := by simpa using ht
      exact le_refl _
    · intro i hi
      simp at hi
  · -- at least two stations
    have hmlen : (midpoints sts).length = sts.length - 1 := midpoints_length sts
    have hmne : ¬ (midpoints sts).isEmpty = true := by
      rw [List.isEmpty_iff]
      intro hnil
      rw [hnil] at hmlen
      simp at hmlen
      omega
    unfold nearest_station
    rw [if_neg hmne]
    cases hidx : firstLtIdx freq (midpoints sts) with
    | some j =>
      obtain ⟨hlt, hle⟩ := firstLtIdx_some_spec freq (midpoints sts) j hidx
      have hjlen : j < (midpoints sts).length :=
        firstLtIdx_lt_length freq (midpoints sts) j hidx
      have hj1 : j + 1 < sts.length := by omega
      have hMj : (midpoints sts)[j]? = some ((fqAt sts j + fqAt sts (j + 1)) / 2) :=
        hMget j hj1
      have hfreqlt : freq < (fqAt sts j + fqAt sts (j + 1)) / 2 := hlt _ hMj
      have hsome : sts.get? j = some sts[j] := by
        rw [List.get?_eq_getElem?, List.getElem?_eq_getElem (by omega : j < sts.length)]
      refine ⟨sts[j], hsome, List.getElem_mem _, ?_, ?_⟩
      · intro t ht
        obtain ⟨k, hk, rfl⟩ := List.mem_iff_getElem.mp ht
        have hcore := nearest_core sts.length (fqAt sts) freq hmono j k (by omega) hk
          ?_ ?_
        · rw [hfq j (by omega), hfq k hk] at hcore
          exact hcore
        · -- left: j = 0 or midpoint j−1 at or below freq
          by_cases hj0 : j = 0
          · exact Or.inl hj0
          · refine Or.inr ?_
            have hMjm : (midpoints sts)[j-1]? =
                some ((fqAt sts (j-1) + fqAt sts (j-1+1)) / 2) := hMget (j-1) (by omega)
            have := hle (j-1) (by omega) _ hMjm
            have hj1e : j - 1 + 1 = j := by omega
            rw [hj1e] at this
            linarith
        · exact Or.inr (by linarith)
      · -- tie: freq exactly the midpoint of stations i, i+1 → result is i+1
        intro i hi hfeq
        have hij : j = i + 1 := by
          rcases lt_trichotomy j (i+1) with hc | hc | hc
          · exfalso
            -- j ≤ i: midpoint j is at most midpoint i = freq, contradiction
            have hle2 : (fqAt sts j + fqAt sts (j + 1)) / 2 ≤ freq := by
              rcases Nat.lt_or_ge j i with hji | hji
              · have := hMlt j i hji (by omega)
                rw [hfeq]
                linarith
              · have : j = i := by omega
                rw [this, hfeq]
            linarith
          · exact hc
          · exfalso
            -- i+1 < j: midpoint i+1 would be ≤ freq = midpoint i, but midpoints increase
            have hMi1 : (midpoints sts)[i+1]? =
                some ((fqAt sts (i+1) + fqAt sts (i+1+1)) / 2) := by
              refine hMget (i+1) ?_
              omega
            have hle3 := hle (i+1) hc _ hMi1
            have hgt := hMlt i (i+1) (by omega) (by omega)
            rw [← hfeq] at hgt
            linarith
        subst hij
        exact List.getElem?_eq_getElem (by omega)
    | none =>
      have hall := firstLtIdx_none_spec freq (midpoints sts) hidx
      have hlast : sts.getLast? = some sts[sts.length - 1] := by
        rw [List.getLast?_eq_getElem?,
          List.getElem?_eq_getElem (by omega : sts.length - 1 < sts.length)]
      refine ⟨sts[sts.length - 1], hlast, List.getElem_mem _, ?_, ?_⟩
      · intro t ht
        obtain ⟨k, hk, rfl⟩ := List.mem_iff_getElem.mp ht
        have hcore := nearest_core sts.length (fqAt sts) freq hmono (sts.length - 1) k
          (by omega) hk ?_ (Or.inl rfl)
        · rw [hfq (sts.length - 1) (by omega), hfq k hk] at hcore
          exact hcore
        · refine Or.inr ?_
          have hMm : (midpoints sts)[sts.length - 2]? =
              some ((fqAt sts (sts.length - 2) + fqAt sts (sts.length - 2 + 1)) / 2) :=
            hMget (sts.length - 2) (by omega)
          have := hall (sts.length - 2) _ hMm
          have he : sts.length - 2 + 1 = sts.length - 1 := by omega
          rw [he] at this
          have he2 : sts.length - 1 - 1 = sts.length - 2 := by omega
          rw [he2]
          linarith
      · intro i hi hfeq
        have hi1 : i + 1 = sts.length - 1 := by
          by_contra hc
          have hlt2 : i + 1 < sts.length - 1 := by omega
          have hMi1 : (midpoints sts)[i+1]? =
              some ((fqAt sts (i+1) + fqAt sts (i+1+1)) / 2) := hMget (i+1) (by omega)
          have hle3 := hall (i+1) _ hMi1
          have hgt := hMlt i (i+1) (by omega) (by omega)
          rw [← hfeq] at hgt
          linarith
        rw [hi1]
        exact List.getElem?_eq_getElem (by omega)

/-- C3 witness: two stations at 90.0 and 92.0 MHz; at the midpoint frequency
91.0 the mapping picks the higher station. -/
theorem nearest_station_is_argmin_witness :
    ([("KA", (90 : ℚ)), ("KB", 92)] : List (String × ℚ)) ≠ [] ∧
    List.Chain' (fun a b : String × ℚ => a.2 < b.2) [("KA", 90), ("KB", 92)] ∧
    (∃ s, nearest_station 91 [("KA", (90 : ℚ)), ("KB", 92)]
        (midpoints [("KA", 90), ("KB", 92)]) = some s ∧
      s ∈ [("KA", (90 : ℚ)), ("KB", 92)] ∧
      (∀ t ∈ [("KA", (90 : ℚ)), ("KB", 92)], |91 - s.2| ≤ |91 - t.2|) ∧
      (∀ i : ℕ, i + 1 < ([("KA", (90 : ℚ)), ("KB", 92)] : List (String × ℚ)).length →
        (91 : ℚ) = (fqAt [("KA", 90), ("KB", 92)] i
          + fqAt [("KA", 90), ("KB", 92)] (i + 1)) / 2 →
        ([("KA", (90 : ℚ)), ("KB", 92)] : List (String × ℚ))[i+1]? = some s)) :=
  ⟨by simp, by simp [List.chain'_cons]; norm_num,
    nearest_station_is_argmin [("KA", 90), ("KB", 92)] 91 (by simp)
      (by simp [List.chain'_cons]; norm_num)⟩

/-! ## scheduler.py / helpers.py / db.py — data model

The persistent store is modelled relationally: `media`, `station_media`,
`station_state` (full table rows per the `db.py` schema, including the
`last_toth_slot_ts` column it declares), `stations` and `plays`.
`helpers.get_station_state` produces a row *view* — an association list with
exactly the columns of its SELECT — and the scheduler's `st["col"]` reads go
through `rowGet`, which raises on a missing column the way `sqlite3.Row`
does. -/

/-- A SQLite value as the scheduler observes it.  A `queue_json` TEXT column
holding a JSON array of media ids is modelled as `jarr` (with
`json.loads`/`json.dumps` the identity on it). -/
inductive SqlV where
  | null
  | int (n : ℤ)
  | real (q : ℚ)
  | text (s : String)
  | jarr (l : List ℤ)
deriving Repr, DecidableEq

/-- Python truthiness of a SQL value (`None`, `0`, `0.0` and `""` are falsy; a
non-NULL `queue_json` TEXT like `"[]"` is a non-empty string, hence truthy). -/
def truthy : SqlV → Bool
  | .null => false
  | .int n => n != 0
  | .real q => q != 0
  | .text s => s != ""
  | .jarr _ => true

/-- A row as returned by a query: an association list of column names and
values; `row["col"]` is `rowGet`. -/
abbrev Row := List (String × SqlV)

/-- `row["col"]`: `sqlite3.Row` lookup; a missing column raises `IndexError`. -/
def rowGet (r : Row) (k : String) : Except String SqlV :=
  match r.find? (fun p => p.1 == k) with
  | some p => .ok p.2
  | none => .error ("IndexError: No item with that key: " ++ k)

/-- Python `int(v or 0)` on an INTEGER column value. -/
def intOr0 (v : SqlV) : Except String ℤ :=
  if truthy v then
    match v with
    | .int n => .ok n
    | .real q => .ok (pyInt q)
    | _ => .error "TypeError: int()"
  else .ok 0

/-- Python `float(v or 0.0)` on a REAL column value. -/
def floatOr0 (v : SqlV) : Except String ℚ :=
  if truthy v then
    match v with
    | .int n => .ok (n : ℚ)
    | .real q => .ok q
    | _ => .error "TypeError: float()"
  else .ok 0

/-- Python `float(v or d)` with a float default `d`. -/
def floatOrD (v : SqlV) (d : ℚ) : Except String ℚ :=
  if truthy v then
    match v with
    | .int n => .ok (n : ℚ)
    | .real q => .ok q
    | _ => .error "TypeError: float()"
  else .ok d

/-- Python `str(v or "")` on a TEXT column value (only applied to TEXT/NULL
columns in the embedded code). -/
def strOrEmpty (v : SqlV) : String :=
  if truthy v then
    match v with
    | .text s => s
    | .int n => toString n
    | .null => "None"
    | _ => ""
  else ""

/-- A `media` table row (`id, path UNIQUE, kind, artist, title, tag,
duration_s`; `mtime` is irrelevant to the scheduler). -/
structure MediaRow where
  id : ℤ
  path : String
  kind : String
  artist : Option String := none
  title : Option String := none
  tag : Option String := none
  duration_s : Option ℚ := none
deriving Repr, DecidableEq

/-- A full `station_state` table row, per the `db.py` schema (column defaults
as declared there; note the schema *does* have `last_toth_slot_ts`). -/
structure StationStateRow where
  current_media_id : Option ℤ := none
  kind : Option String := none
  started_ts : Option ℚ := none
  ends_ts : Option ℚ := none
  queue_json : Option (List ℤ) := none
  queue_index : ℤ := 0
  pending_break : ℤ := 0
  last_break_ts : ℚ := 0
  force_ident_next : ℤ := 0
  last_ident_ts : ℚ := 0
  last_toth_slot_ts : ℚ := 0
deriving Repr, DecidableEq

/-- A `plays` table row (`ended_ts` stays NULL on insert). -/
structure PlayRow where
  station_id : ℤ
  media_id : ℤ
  kind : String
  started_ts : ℚ
deriving Repr, DecidableEq

/-- The persistent store. -/
structure DB where
  media : List MediaRow
  station_media : List (ℤ × ℤ)
  stations : List (String × ℤ)
  station_state : List (ℤ × StationStateRow)
  plays : List PlayRow
deriving Repr, DecidableEq

/-- `helpers.media_by_id`: `SELECT ... FROM media WHERE id=?` (id is unique). -/
def media_by_id (db : DB) (mid : ℤ) : Option MediaRow :=
  db.media.find? (fun m => m.id == mid)

/-- `helpers.station_id`: `SELECT id FROM stations WHERE name=?`; `none`
models the `RuntimeError` raised when the station is missing. -/
def station_id (db : DB) (name : String) : Option ℤ :=
  (db.stations.find? (fun p => p.1 == name)).map (·.2)

/-- The current `station_state` table row of a station, if any. -/
def state_of (db : DB) (sid : ℤ) : Option StationStateRow :=
  (db.station_state.find? (fun p => p.1 == sid)).map (·.2)

def optIntV : Option ℤ → SqlV
  | none => .null
  | some n => .int n

def optRealV : Option ℚ → SqlV
  | none => .null
  | some q => .real q

def optTextV : Option String → SqlV
  | none => .null
  | some s => .text s

def optJarrV : Option (List ℤ) → SqlV
  | none => .null
  | some l => .jarr l

/-- The row view `helpers.get_station_state`'s SELECT produces for one state
table row: exactly its column list, with `path` and `duration_s` LEFT JOINed
from `media` on `current_media_id`.  (The SELECT does *not* include
`last_toth_slot_ts`.) -/
def state_row_view (db : DB) (sid : ℤ) (ss : StationStateRow) : Row :=
  let m := ss.current_media_id.bind (media_by_id db)
  [("station_id", .int sid),
   ("current_media_id", optIntV ss.current_media_id),
   ("kind", optTextV ss.kind),
   ("started_ts", optRealV ss.started_ts),
   ("ends_ts", optRealV ss.ends_ts),
   ("queue_json", optJarrV ss.queue_json),
   ("queue_index", .int ss.queue_index),
   ("pending_break", .int ss.pending_break),
   ("last_break_ts", .real ss.last_break_ts),
   ("force_ident_next", .int ss.force_ident_next),
   ("last_ident_ts", .real ss.last_ident_ts),
   ("path", optTextV (m.map (·.path))),
   ("duration_s", match m with
     | some mr => optRealV mr.duration_s
     | none => .null)]

/-- `helpers.get_station_state`. -/
def get_station_state (db : DB) (sid : ℤ) : Option Row :=
  (state_of db sid).map (state_row_view db sid)

/-- Replace (or insert) a station's state-table row. -/
def putState (db : DB) (sid : ℤ) (ss : StationStateRow) : DB :=
  if (db.station_state.find? (fun p => p.1 == sid)).isSome then
    { db with station_state :=
        db.station_state.map (fun p => if p.1 == sid then (sid, ss) else p) }
  else
    { db with station_state := db.station_state ++ [(sid, ss)] }

/-- `helpers.set_noise_state`: upsert with kind `"noise"`, clearing the
current media and queue; the flag columns are untouched on conflict and take
their schema defaults on a fresh insert. -/
def set_noise_state (db : DB) (sid : ℤ) (now_ts ends_ts : ℚ) : DB :=
  match state_of db sid with
  | some old =>
      putState db sid { old with
        current_media_id := none
        kind := some "noise"
        started_ts := some now_ts
        ends_ts := some ends_ts
        queue_json := none
        queue_index := 0 }
  | none =>
      putState db sid
        { current_media_id := none
          kind := some "noise"
          started_ts := some now_ts
          ends_ts := some ends_ts
          queue_json := none
          queue_index := 0 }

/-! ## helpers.py — writes -/

/-- The keyword parameters accepted by `helpers.set_station_state` (note:
no `last_toth_slot_ts`). -/
def set_station_state_params : List String :=
  ["station_id_", "media_id", "kind", "started_ts", "ends_ts",
   "queue_json", "queue_index", "pending_break", "last_break_ts",
   "force_ident_next", "last_ident_ts"]

/-- The keyword names used at every `set_station_state` call site inside
`Scheduler._advance_station` (all four sites pass the same twelve keywords,
including `last_toth_slot_ts`). -/
def advance_set_state_kwargs : List String :=
  ["station_id_", "media_id", "kind", "started_ts", "ends_ts",
   "queue_json", "queue_index", "pending_break", "last_break_ts",
   "force_ident_next", "last_ident_ts", "last_toth_slot_ts"]

/-- The values `helpers.set_station_state` writes (its own parameters). -/
structure SetStationStateArgs where
  media_id : ℤ
  kind : String
  started_ts : ℚ
  ends_ts : ℚ
  queue_json : Option (List ℤ)
  queue_index : ℤ
  pending_break : ℤ
  last_break_ts : ℚ
  force_ident_next : ℤ
  last_ident_ts : ℚ
deriving Repr, DecidableEq

/-- The SQL effect of `helpers.set_station_state`: INSERT the listed columns
(the unlisted `last_toth_slot_ts` takes its schema default 0), ON CONFLICT
update exactly the listed columns (`last_toth_slot_ts` keeps its old value). -/
def set_station_state_apply (db : DB) (sid : ℤ) (a : SetStationStateArgs) : DB :=
  match state_of db sid with
  | some old =>
      putState db sid { old with
        current_media_id := some a.media_id
        kind := some a.kind
        started_ts := some a.started_ts
        ends_ts := some a.ends_ts
        queue_json := a.queue_json
        queue_index := a.queue_index
        pending_break := a.pending_break
        last_break_ts := a.last_break_ts
        force_ident_next := a.force_ident_next
        last_ident_ts := a.last_ident_ts }
  | none =>
      putState db sid
        { current_media_id := some a.media_id
          kind := some a.kind
          started_ts := some a.started_ts
          ends_ts := some a.ends_ts
          queue_json := a.queue_json
          queue_index := a.queue_index
          pending_break := a.pending_break
          last_break_ts := a.last_break_ts
          force_ident_next := a.force_ident_next
          last_ident_ts := a.last_ident_ts
          last_toth_slot_ts := 0 }

/-- A Python keyword call of `helpers.set_station_state`: every keyword of the
call must be a parameter of the function, otherwise the call raises
`TypeError` before anything is written. -/
def call_set_station_state (db : DB) (sid : ℤ) (kwargs : List String)
    (a : SetStationStateArgs) : Except String DB :=
  if kwargs.all (fun k => set_station_state_params.contains k) then
    .ok (set_station_state_apply db sid a)
  else
    .error "TypeError: set_station_state() got an unexpected keyword argument"

/-- `helpers.update_station_flags`: UPDATE only the columns whose argument is
not `None` — so passing `queue_json=None` does *not* set the column to NULL,
it skips it; a missing state row makes the UPDATE a no-op.  Parameters in the
source's order. -/
def update_station_flags (db : DB) (sid : ℤ)
    (pending_break : Option ℤ) (last_break_ts : Option ℚ)
    (force_ident_next : Option ℤ) (last_ident_ts : Option ℚ)
    (queue_json : Option (List ℤ)) (queue_index : Option ℤ) : DB :=
  match state_of db sid with
  | none => db
  | some old =>
      putState db sid
        { old with
          pending_break := pending_break.getD old.pending_break
          last_break_ts := last_break_ts.getD old.last_break_ts
          force_ident_next := force_ident_next.getD old.force_ident_next
          last_ident_ts := last_ident_ts.getD old.last_ident_ts
          queue_json :=
            match queue_json with
            | some l => some l
            | none => old.queue_json
          queue_index := queue_index.getD old.queue_index }

/-- `helpers.insert_play`: append a `plays` row with NULL `ended_ts`. -/
def insert_play (db : DB) (sid mid : ℤ) (kind : String) (started_ts : ℚ) : DB :=
  { db with plays := db.plays ++ [⟨sid, mid, kind, started_ts⟩] }

/-! ## helpers.py — random media queries (randomness as oracles) -/

/-- The rows satisfying `JOIN station_media ... WHERE sm.station_id=? AND
m.kind=?` (order irrelevant: the queries order by RANDOM()). -/
def station_media_candidates (db : DB) (sid : ℤ) (kind : String) : List MediaRow :=
  db.media.filter (fun m => m.kind == kind && db.station_media.contains (sid, m.id))

/-- `helpers.random_station_media`: one random row of the candidate set; the
`ORDER BY RANDOM() LIMIT 1` draw is the supplied `pick` oracle. -/
def random_station_media (pick : List MediaRow → Option MediaRow)
    (db : DB) (sid : ℤ) (kind : String) : Option MediaRow :=
  pick (station_media_candidates db sid kind)

/-- Python `str.startswith` / SQL `LIKE 'dir%'` as a test on the character
lists (a kernel-reducible model of `String.startsWith`). -/
def strStarts (s dir : String) : Bool := dir.data.isPrefixOf s.data

/-- `helpers.random_station_media_filtered`: as above, restricted to paths
starting with the given directory (`LIKE 'dir%'`). -/
def random_station_media_filtered (pick : List MediaRow → Option MediaRow)
    (db : DB) (sid : ℤ) (kind dir : String) : Option MediaRow :=
  pick ((station_media_candidates db sid kind).filter (fun m => strStarts m.path dir))

/-- `helpers.station_media_pool`: up to `limit` candidate rows in a random
order (the order is the supplied `ord` oracle). -/
def station_media_pool (ord : List MediaRow → List MediaRow)
    (db : DB) (sid : ℤ) (kind : String) (limit : ℕ) : List MediaRow :=
  (ord (station_media_candidates db sid kind)).take limit

/-- The random draws and choices one advance can consume.  A well-formed
oracle picks an element of the offered list (`none` exactly on the empty
list) and reorders without inventing rows; theorems state the hypotheses they
need. -/
structure Oracles where
  pickToth : List MediaRow → Option MediaRow
  pickIdent : List MediaRow → Option MediaRow
  pickOverlay : List MediaRow → Option MediaRow
  poolOrder : List MediaRow → List MediaRow
  shuffle : List MediaRow → List MediaRow
  jitter : ℚ
  songChoice : List MediaRow → Option MediaRow
  draw : ℚ

/-- An oracle whose picks are the head of the offered list and whose orders
are the identity (used to evaluate concrete runs). -/
def headOracles : Oracles :=
  { pickToth := List.head?, pickIdent := List.head?, pickOverlay := List.head?
    poolOrder := id, shuffle := id, jitter := 0, songChoice := List.head?, draw := 0 }

/-! ## station_config.py — the configuration records the scheduler reads -/

/-- `station_config.ScheduleEntry`. -/
structure ScheduleEntry where
  tags : List String
  overlays_dir : String
  overlays_probability : ℚ
deriving Repr, DecidableEq

/-- `station_config.StationConfig` (the schedule mapping itself is resolved
outside; numeric fields per the dataclass, ints for the `_s` periods). -/
structure StationConfig where
  name : String
  freq : ℚ
  idents_dir : String := ""
  commercials_dir : String := ""
  break_frequency_s : ℤ := 0
  break_length_s : ℤ := 0
  ident_frequency_s : ℤ := 0
  overlay_pad_s : ℚ := 0
  overlay_duck : ℚ := mkRat 2 5
  overlay_ramp_s : ℚ := mkRat 1 2
  top_of_the_hour : String := ""
deriving Repr, DecidableEq

/-! ## scheduler.py -/

/-- `scheduler.OverlayIdent`. -/
structure OverlayIdent where
  path : String
  at_s : ℚ
  duck : ℚ
  ramp_s : ℚ
deriving Repr, DecidableEq

/-- `scheduler.NowPlaying`. -/
structure NowPlaying where
  station : String
  kind : String
  path : Option String
  media_id : Option ℤ
  started_ts : ℚ
  ends_ts : ℚ
  seek_s : ℚ
  slot_end_ts : ℚ
  ident_overlay : Option OverlayIdent
deriving Repr, DecidableEq

/-- The loop of `_build_ident_plus_commercials_queue` over the shuffled
commercial pool: stop once `total ≥ max_total`; skip durations ≤ 0.1 s;
append while `total + dur ≤ max_total`. -/
def queue_commercials_loop (max_total : ℚ) :
    List MediaRow → ℚ → List ℤ → (List ℤ × ℚ)
  | [], total, q => (q, total)
  | c :: cs, total, q =>
    if max_total ≤ total then (q, total)
    else
      let dur := c.duration_s.getD 0
      if dur ≤ mkRat 1 10 then queue_commercials_loop max_total cs total q
      else if total + dur ≤ max_total then
        queue_commercials_loop max_total cs (total + dur) (q ++ [c.id])
      else queue_commercials_loop max_total cs total q

/-- `Scheduler._build_ident_plus_commercials_queue`: optionally a leading
random ident (prepended without checking the budget), then greedy commercials
from an up-to-800-row shuffled pool. -/
def build_ident_plus_commercials_queue (orc : Oracles) (db : DB) (sid : ℤ)
    (target_s slop_s : ℚ) (skip_leading_ident : Bool) : List ℤ :=
  let target := max 0 target_s
  let max_total := target + slop_s
  let start :=
    if skip_leading_ident then (([] : List ℤ), (0 : ℚ))
    else
      match random_station_media orc.pickIdent db sid "ident" with
      | some ident => ([ident.id], ident.duration_s.getD 0)
      | none => ([], 0)
  let pool := station_media_pool orc.poolOrder db sid "commercial" 800
  if pool.isEmpty then start.1
  else (queue_commercials_loop max_total (orc.shuffle pool) start.2 start.1).1

/-- `Scheduler._maybe_mark_break_due`: for a station with a positive break
frequency and no pending break, raise `pending_break` once
`now_ts − last_break_ts ≥ break_frequency_s` (INSERTing a fresh state row when
none exists yet). -/
def maybe_mark_break_due (db : DB) (cfg : StationConfig) (sid : ℤ)
    (now_ts : ℚ) : Except String DB := do
  let freq := cfg.break_frequency_s
  if freq ≤ 0 then
    return db
  else do
    let stOpt := get_station_state db sid
    let pending ← match stOpt with
      | some st => do
          let v ← rowGet st "pending_break"
          intOr0 v
      | none => pure 0
    let last_break ← match stOpt with
      | some st => do
          let v ← rowGet st "last_break_ts"
          floatOr0 v
      | none => pure 0
    if pending ≠ 0 then
      return db
    else if (freq : ℚ) ≤ now_ts - last_break then
      match stOpt with
      | some _ =>
          return update_station_flags db sid (some 1) none none none none none
      | none =>
          return putState db sid { pending_break := 1, last_break_ts := last_break }
    else
      return db

/-- `Scheduler._overlay_if_due`.  Consumes (clears) `force_ident_next`
whenever the overlay opportunity is inapplicable (no overlays dir, no
matching media) or is consumed by an emission; the probability draw comes
from the oracle. -/
def overlay_if_due (orc : Oracles) (db : DB) (cfg : StationConfig) (sid : ℤ)
    (st_row : Option Row) (schedule_entry : Option ScheduleEntry)
    (consume : Bool) : Except String (DB × Option OverlayIdent) := do
  if consume = false then
    return (db, none)
  else do
    let force ← match st_row with
      | some r => do
          let v ← rowGet r "force_ident_next"
          intOr0 v
      | none => pure 0
    let clearBit : DB :=
      if force ≠ 0 then update_station_flags db sid none none (some 0) none none none
      else db
    let dirEmpty :=
      match schedule_entry with
      | none => true
      | some e => e.overlays_dir == ""
    if dirEmpty then
      return (clearBit, none)
    else do
      let entry := match schedule_entry with
        | some e => e
        | none => ⟨[], "", 0⟩
      match random_station_media_filtered orc.pickOverlay db sid "overlay"
          entry.overlays_dir with
      | none => return (clearBit, none)
      | some ov =>
        let due :=
          if force ≠ 0 then true
          else if 0 < entry.overlays_probability then
            decide (orc.draw < entry.overlays_probability)
          else false
        if due then
          let db2 := update_station_flags db sid none none (some 0) none none none
          return (db2, some
            { path := ov.path
              at_s := max 0 cfg.overlay_pad_s
              duck := max 0 (min 1
                (if cfg.overlay_duck == 0 then mkRat 2 5 else cfg.overlay_duck))
              ramp_s := max 0
                (if cfg.overlay_ramp_s == 0 then mkRat 1 2 else cfg.overlay_ramp_s) })
        else
          return (db, none)

/-- `Scheduler._should_queue_ident`. -/
def should_queue_ident (cfg : StationConfig) (now_ts : ℚ)
    (st_row : Option Row) : Except String Bool := do
  let freq := cfg.ident_frequency_s
  if freq ≤ 0 then
    return false
  else do
    let last ← match st_row with
      | some r => do
          let v ← rowGet r "last_ident_ts"
          floatOr0 v
      | none => pure 0
    return decide ((freq : ℚ) ≤ now_ts - last)

/-- `Scheduler._currently_playing_media_ids`. -/
def currently_playing_media_ids (db : DB) : List ℤ :=
  db.station_state.filterMap (fun p => p.2.current_media_id)

/-- `ORDER BY duration_s DESC, id DESC` as a sort predicate. -/
def song_order (a b : MediaRow) : Bool :=
  decide (b.duration_s.getD 0 < a.duration_s.getD 0) ||
    (decide (a.duration_s.getD 0 = b.duration_s.getD 0) && decide (b.id ≤ a.id))

/-- `Scheduler._pick_best_fit_song_station_seeded`: jittered max duration,
tag-filtered duration-DESC pool capped at `pool_limit`, avoid-set filter with
fallback, near-tie sampling (else top 20). -/
def pick_best_fit_song (orc : Oracles) (db : DB) (tags : List String)
    (max_duration : ℚ) (pool_limit : ℕ) (near_window_s : ℚ)
    (avoid_other_station_current : Bool) (duration_jitter_s : ℚ)
    (tick_reserved : List ℤ) : Option MediaRow :=
  if max_duration ≤ 1 then none
  else
    let tags := tags.filter (fun t => t ≠ "")
    if tags.isEmpty then none
    else
      let maxDur :=
        if 0 < duration_jitter_s then max 1 (max_duration - orc.jitter)
        else max_duration
      let avoid := tick_reserved ++
        (if avoid_other_station_current then currently_playing_media_ids db else [])
      let rows := ((db.media.filter (fun m =>
          m.kind == "song" &&
          (match m.tag with | some t => tags.contains t | none => false) &&
          m.duration_s.isSome &&
          decide (m.duration_s.getD 0 ≤ maxDur))).mergeSort song_order).take pool_limit
      if rows.isEmpty then none
      else
        let filtered := rows.filter (fun r => !(avoid.contains r.id))
        let rows := if filtered.isEmpty then rows else filtered
        let best_dur := (rows.head?.map (fun r => r.duration_s.getD 0)).getD 0
        let near := rows.filter (fun r =>
          decide (best_dur - r.duration_s.getD 0 ≤ near_window_s))
        let pick_from := if 2 ≤ near.length then near else rows.take 20
        orc.songChoice pick_from

/-- `Scheduler._advance_station`.  The local-calendar helper
`_current_slot_start_ts(now_ts)` (datetime, an external library) is passed in
as `slot_start_ts`, and `slot_end_ts` is a parameter as in the source.  The
source's branches in order: continue queue, top-of-hour, pending break,
best-fit song, filler/noise.  Each branch is a step returning either a
finished `NowPlaying` or the store to fall through with. -/
def advance_station (orc : Oracles) (db : DB) (sid : ℤ) (station_name : String)
    (cfg : StationConfig) (tags : List String)
    (now_ts slot_end_ts slot_start_ts : ℚ) (active : Bool)
    (schedule_entry : Option ScheduleEntry)
    (break_slop_s filler_slop_s : ℚ) (tick_reserved : List ℤ) :
    Except String (DB × NowPlaying) := do
  let remaining := max 0 (slot_end_ts - now_ts)
  let st := get_station_state db sid
  -- Continue queue if present
  let contQ : Except String (DB × Option NowPlaying) :=
    match st with
    | some strow => do
        let qv ← rowGet strow "queue_json"
        if truthy qv then do
          let queue ← match qv with
            | .jarr l => pure l
            | _ => Except.error "json.loads: queue_json is not a JSON array"
          let iv ← rowGet strow "queue_index"
          let idx ← intOr0 iv
          if idx < (queue.length : ℤ) then do
            let mid := queue.getD idx.toNat 0
            match media_by_id db mid with
            | some item => do
                let dur := item.duration_s.getD 0
                -- keyword arguments of the set_station_state call, evaluated
                -- in source order; the last one reads st["last_toth_slot_ts"]
                let pb ← (rowGet strow "pending_break") >>= intOr0
                let lb ← (rowGet strow "last_break_ts") >>= floatOr0
                let fi ← (rowGet strow "force_ident_next") >>= intOr0
                let li ← (rowGet strow "last_ident_ts") >>= floatOr0
                let _lt ← (rowGet strow "last_toth_slot_ts") >>= floatOr0
                let db1 ← call_set_station_state db sid advance_set_state_kwargs
                  { media_id := mid, kind := item.kind, started_ts := now_ts
                    ends_ts := now_ts + dur, queue_json := some queue
                    queue_index := idx + 1, pending_break := pb
                    last_break_ts := lb, force_ident_next := fi
                    last_ident_ts := li }
                let db2 := insert_play db1 sid mid item.kind now_ts
                let r ←
                  if active = true ∧ item.kind = "song" then
                    overlay_if_due orc db2 cfg sid st schedule_entry true
                  else pure (db2, none)
                return (r.1, some
                  { station := station_name, kind := item.kind
                    path := some item.path, media_id := some mid
                    started_ts := now_ts, ends_ts := now_ts + dur, seek_s := 0
                    slot_end_ts := slot_end_ts, ident_overlay := r.2 })
            | none =>
                -- queue exhausted -> clear (queue_json=None is skipped by
                -- update_station_flags; only queue_index is set)
                return (update_station_flags db sid none none none none none (some 0),
                  none)
          else
            return (update_station_flags db sid none none none none none (some 0),
              none)
        else return (db, none)
    | none => pure (db, none)
  let c ← contQ
  match c.2 with
  | some np => return (c.1, np)
  | none => do
    let db1 := c.1
    let pending_break ← match st with
      | some r => (rowGet r "pending_break") >>= intOr0
      | none => pure 0
    let last_break_ts ← match st with
      | some r => (rowGet r "last_break_ts") >>= floatOr0
      | none => pure 0
    let force_ident_next ← match st with
      | some r => (rowGet r "force_ident_next") >>= intOr0
      | none => pure 0
    let last_ident_ts ← match st with
      | some r => (rowGet r "last_ident_ts") >>= floatOr0
      | none => pure 0
    let last_toth_slot_ts ← match st with
      | some r => (rowGet r "last_toth_slot_ts") >>= floatOr0
      | none => pure (0 : ℚ)
    -- Top-of-the-hour jingle
    let tothStep : Except String (DB × Option NowPlaying) := do
      let toth_dir := cfg.top_of_the_hour
      if toth_dir ≠ "" ∧ last_toth_slot_ts ≠ slot_start_ts then
        match random_station_media_filtered orc.pickToth db1 sid "top_of_hour"
            toth_dir with
        | some toth_item => do
            let mid := toth_item.id
            let dur := toth_item.duration_s.getD 0
            -- the source also passes last_toth_slot_ts=slot_start_ts here
            let db2 ← call_set_station_state db1 sid advance_set_state_kwargs
              { media_id := mid, kind := "top_of_hour", started_ts := now_ts
                ends_ts := now_ts + dur, queue_json := none, queue_index := 0
                pending_break := pending_break, last_break_ts := last_break_ts
                force_ident_next := force_ident_next
                last_ident_ts := last_ident_ts }
            let db3 := insert_play db2 sid mid "top_of_hour" now_ts
            return (db3, some
              { station := station_name, kind := "top_of_hour"
                path := some toth_item.path, media_id := some mid
                started_ts := now_ts, ends_ts := now_ts + dur, seek_s := 0
                slot_end_ts := slot_end_ts, ident_overlay := none })
        | none => return (db1, none)
      else return (db1, none)
    let t ← tothStep
    match t.2 with
    | some np => return (t.1, np)
    | none => do
      let db2 := t.1
      -- Break if pending
      let breakStep : Except String (DB × Option NowPlaying) := do
        if pending_break ≠ 0 ∧ 0 < cfg.break_length_s then do
          let last_kind ← match st with
            | some r => do
                let v ← rowGet r "kind"
                pure (strOrEmpty v)
            | none => pure ""
          let skip_leading_ident := last_kind == "ident"
          let queue_ids := build_ident_plus_commercials_queue orc db2 sid
            (cfg.break_length_s : ℚ) break_slop_s skip_leading_ident
          match queue_ids with
          | first_id :: _ => do
              let item := media_by_id db2 first_id
              let dur := (item.map (fun i => i.duration_s.getD 0)).getD 0
              let kind := (item.map (fun i => i.kind)).getD "ident"
              let db3 ← call_set_station_state db2 sid advance_set_state_kwargs
                { media_id := first_id, kind := kind, started_ts := now_ts
                  ends_ts := now_ts + dur, queue_json := some queue_ids
                  queue_index := 1, pending_break := 0, last_break_ts := now_ts
                  force_ident_next := 1, last_ident_ts := last_ident_ts }
              let db4 := insert_play db3 sid first_id kind now_ts
              return (db4, some
                { station := station_name, kind := kind
                  path := item.map (fun i => i.path), media_id := some first_id
                  started_ts := now_ts, ends_ts := now_ts + dur, seek_s := 0
                  slot_end_ts := slot_end_ts, ident_overlay := none })
          | [] =>
              return (update_station_flags db2 sid (some 0) none none none none none,
                none)
        else return (db2, none)
      let b ← breakStep
      match b.2 with
      | some np => return (b.1, np)
      | none => do
        let db3 := b.1
        -- Best-fit song (seeded)
        let songStep : Except String (DB × Option NowPlaying) := do
          match pick_best_fit_song orc db3 tags remaining 600 30 true 12
              tick_reserved with
          | some song => do
              let mid := song.id
              -- (self._tick_reserved_song_ids.add(mid): in-memory per-tick
              -- scheduler state, not persisted)
              let dur := song.duration_s.getD 0
              let shouldIdent ← should_queue_ident cfg now_ts st
              let qqq ←
                if shouldIdent then
                  match random_station_media orc.pickIdent db3 sid "ident" with
                  | some ident_item =>
                      pure (some [mid, ident_item.id], (1 : ℤ), now_ts)
                  | none => pure ((none : Option (List ℤ)), (0 : ℤ), last_ident_ts)
                else pure ((none : Option (List ℤ)), (0 : ℤ), last_ident_ts)
              let db4 ← call_set_station_state db3 sid advance_set_state_kwargs
                { media_id := mid, kind := "song", started_ts := now_ts
                  ends_ts := now_ts + dur, queue_json := qqq.1
                  queue_index := qqq.2.1, pending_break := 0
                  last_break_ts := last_break_ts
                  force_ident_next := force_ident_next
                  last_ident_ts := qqq.2.2 }
              let db5 := insert_play db4 sid mid "song" now_ts
              let r ←
                if active then overlay_if_due orc db5 cfg sid st schedule_entry true
                else pure (db5, none)
              return (r.1, some
                { station := station_name, kind := "song"
                  path := some song.path, media_id := some mid
                  started_ts := now_ts, ends_ts := now_ts + dur, seek_s := 0
                  slot_end_ts := slot_end_ts, ident_overlay := r.2 })
          | none => return (db3, none)
        let s ← songStep
        match s.2 with
        | some np => return (s.1, np)
        | none => do
          let db4 := s.1
          -- Filler (ident + commercials)
          let queue_ids := build_ident_plus_commercials_queue orc db4 sid
            remaining filler_slop_s false
          match queue_ids with
          | [] =>
              return (set_noise_state db4 sid now_ts slot_end_ts,
                { station := station_name, kind := "noise", path := none
                  media_id := none, started_ts := now_ts, ends_ts := slot_end_ts
                  seek_s := 0, slot_end_ts := slot_end_ts, ident_overlay := none })
          | first_id :: _ => do
              let item := media_by_id db4 first_id
              let dur := (item.map (fun i => i.duration_s.getD 0)).getD 0
              let kind := (item.map (fun i => i.kind)).getD "ident"
              let db5 ← call_set_station_state db4 sid advance_set_state_kwargs
                { media_id := first_id, kind := kind, started_ts := now_ts
                  ends_ts := now_ts + dur, queue_json := some queue_ids
                  queue_index := 1, pending_break := 0
                  last_break_ts := last_break_ts
                  force_ident_next := force_ident_next
                  last_ident_ts := last_ident_ts }
              let db6 := insert_play db5 sid first_id kind now_ts
              return (db6,
                { station := station_name, kind := kind
                  path := item.map (fun i => i.path), media_id := some first_id
                  started_ts := now_ts, ends_ts := now_ts + dur, seek_s := 0
                  slot_end_ts := slot_end_ts, ident_overlay := none })

/-- `Scheduler.ensure_station_current`.  The schedule-resolution helpers
(`_schedule_entry_for_now`, `_next_slot_start_ts`, `_current_slot_start_ts`,
all local-calendar datetime computations) are passed in as the resolved
`schedule_entry`, `slot_end_ts` and `slot_start_ts`. -/
def ensure_station_current (orc : Oracles) (db : DB) (cfg : StationConfig)
    (sid : ℤ) (station_name : String) (now_ts : ℚ) (active : Bool)
    (schedule_entry : ScheduleEntry) (slot_end_ts slot_start_ts : ℚ)
    (break_slop_s filler_slop_s : ℚ) (tick_reserved : List ℤ) :
    Except String (DB × NowPlaying) := do
  let tags := schedule_entry.tags
  if tags.isEmpty then
    return (set_noise_state db sid now_ts slot_end_ts,
      { station := station_name, kind := "noise", path := none, media_id := none
        started_ts := now_ts, ends_ts := slot_end_ts, seek_s := 0
        slot_end_ts := slot_end_ts, ident_overlay := none })
  else do
    let st := get_station_state db sid
    -- If current still valid, return it (with continuity seek)
    let validStep : Except String (Option (DB × NowPlaying)) :=
      match st with
      | some strow => do
          let kv ← rowGet strow "kind"
          let kind := strOrEmpty kv
          let ev ← rowGet strow "ends_ts"
          let ends ← floatOr0 ev
          let pv ← rowGet strow "path"
          if kind ≠ "" ∧ kind ≠ "noise" ∧ now_ts < ends ∧ truthy pv = true then do
            let sv ← rowGet strow "started_ts"
            let started ← floatOrD sv now_ts
            let seek := max 0 (now_ts - started)
            let r ←
              if kind = "song" ∧ active = true ∧ seek ≤ mkRat 1 4 then
                overlay_if_due orc db cfg sid (some strow) (some schedule_entry) true
              else pure (db, none)
            let cv ← rowGet strow "current_media_id"
            let mid : Option ℤ :=
              match cv with
              | .int n => some n
              | _ => none
            return some (r.1,
              { station := station_name, kind := kind
                path := some (strOrEmpty pv), media_id := mid
                started_ts := started, ends_ts := ends, seek_s := seek
                slot_end_ts := slot_end_ts, ident_overlay := r.2 })
          else return none
      | none => pure none
    let v ← validStep
    match v with
    | some r => return r
    | none =>
        advance_station orc db sid station_name cfg tags now_ts slot_end_ts
          slot_start_ts active (some schedule_entry) break_slop_s filler_slop_s
          tick_reserved

deriving instance DecidableEq for Except

/-! ## Reduction lemmas for the row view and the store operations -/

theorem rowGet_view_kind (db : DB) (sid : ℤ) (ss : StationStateRow) :
    rowGet (state_row_view db sid ss) "kind" = .ok (optTextV ss.kind) := rfl

theorem rowGet_view_started (db : DB) (sid : ℤ) (ss : StationStateRow) :
    rowGet (state_row_view db sid ss) "started_ts" = .ok (optRealV ss.started_ts) := rfl

theorem rowGet_view_ends (db : DB) (sid : ℤ) (ss : StationStateRow) :
    rowGet (state_row_view db sid ss) "ends_ts" = .ok (optRealV ss.ends_ts) := rfl

theorem rowGet_view_queue_json (db : DB) (sid : ℤ) (ss : StationStateRow) :
    rowGet (state_row_view db sid ss) "queue_json" = .ok (optJarrV ss.queue_json) := rfl

theorem rowGet_view_queue_index (db : DB) (sid : ℤ) (ss : StationStateRow) :
    rowGet (state_row_view db sid ss) "queue_index" = .ok (.int ss.queue_index) := rfl

theorem rowGet_view_pending (db : DB) (sid : ℤ) (ss : StationStateRow) :
    rowGet (state_row_view db sid ss) "pending_break" = .ok (.int ss.pending_break) := rfl

theorem rowGet_view_last_break (db : DB) (sid : ℤ) (ss : StationStateRow) :
    rowGet (state_row_view db sid ss) "last_break_ts" = .ok (.real ss.last_break_ts) := rfl

theorem rowGet_view_force (db : DB) (sid : ℤ) (ss : StationStateRow) :
    rowGet (state_row_view db sid ss) "force_ident_next"
      = .ok (.int ss.force_ident_next) := rfl

theorem rowGet_view_last_ident (db : DB) (sid : ℤ) (ss : StationStateRow) :
    rowGet (state_row_view db sid ss) "last_ident_ts" = .ok (.real ss.last_ident_ts) := rfl

theorem rowGet_view_cmid (db : DB) (sid : ℤ) (ss : StationStateRow) :
    rowGet (state_row_view db sid ss) "current_media_id"
      = .ok (optIntV ss.current_media_id) := rfl

theorem rowGet_view_path (db : DB) (sid : ℤ) (ss : StationStateRow) :
    rowGet (state_row_view db sid ss) "path"
      = .ok (optTextV ((ss.current_media_id.bind (media_by_id db)).map
          (fun m => m.path))) := rfl

theorem intOr0_optInt (o : Option ℤ) : intOr0 (optIntV o) = .ok (o.getD 0) := by
  cases o with
  | none => rfl
  | some n =>
    show intOr0 (.int n) = _
    unfold intOr0 truthy
    by_cases h : n = 0 <;> simp [h]

theorem floatOr0_optReal (o : Option ℚ) : floatOr0 (optRealV o) = .ok (o.getD 0) := by
  cases o with
  | none => rfl
  | some q =>
    show floatOr0 (.real q) = _
    unfold floatOr0 truthy
    by_cases h : q = 0 <;> simp [h]

theorem floatOrD_optReal (o : Option ℚ) (d : ℚ) :
    floatOrD (optRealV o) d
      = .ok (match o with
        | some q => if q = 0 then d else q
        | none => d) := by
  cases o with
  | none => rfl
  | some q =>
    show floatOrD (.real q) d = _
    unfold floatOrD truthy
    by_cases h : q = 0 <;> simp [h]

/-- The decisive missing column: `get_station_state`'s row has no
`last_toth_slot_ts`, so reading it raises. -/
theorem rowGet_view_toth (db : DB) (sid : ℤ) (ss : StationStateRow) :
    rowGet (state_row_view db sid ss) "last_toth_slot_ts"
      = .error "IndexError: No item with that key: last_toth_slot_ts" := rfl

@[simp] theorem pure_ok {α : Type} (a : α) :
    (pure a : Except String α) = Except.ok a := rfl

theorem ok_bind {α β : Type} (a : α) (f : α → Except String β) :
    (Except.ok a : Except String α) >>= f = f a := rfl

theorem error_bind {α β : Type} (e : String) (f : α → Except String β) :
    (Except.error e : Except String α) >>= f = .error e := rfl

theorem ite_bind {α β : Type} (c : Prop) [Decidable c] (x y : Except String α)
    (f : α → Except String β) :
    (if c then x else y) >>= f = if c then x >>= f else y >>= f := by
  split <;> rfl

theorem intOr0_int (n : ℤ) : intOr0 (.int n) = .ok n := by
  unfold intOr0 truthy
  by_cases h : n = 0 <;> simp [h]

theorem floatOr0_real (q : ℚ) : floatOr0 (.real q) = .ok q := by
  unfold floatOr0 truthy
  by_cases h : q = 0 <;> simp [h]

theorem find?_map_replace (sid : ℤ) (ss : StationStateRow) :
    ∀ l : List (ℤ × StationStateRow),
      (l.find? (fun p => p.1 == sid)).isSome →
      ((l.map (fun p => if p.1 == sid then (sid, ss) else p)).find?
          (fun p => p.1 == sid)) = some (sid, ss) := by
  intro l
  induction l with
  | nil => intro h; simp [List.find?] at h
  | cons a l ih =>
    intro h
    by_cases ha : a.1 = sid
    · simp [List.find?, ha]
    · have ha' : (a.1 == sid) = false := by simp [ha]
      simp only [List.map_cons]
      rw [show (if (a.1 == sid) = true then (sid, ss) else a) = a from by simp [ha']]
      rw [List.find?_cons_of_neg _ (by simp [ha])] at h
      rw [List.find?_cons_of_neg _ (by simp [ha])]
      exact ih h

theorem state_of_putState (db : DB) (sid : ℤ) (ss : StationStateRow) :
    state_of (putState db sid ss) sid = some ss := by
  unfold putState state_of
  by_cases h : (db.station_state.find? (fun p => p.1 == sid)).isSome
  · rw [if_pos h]
    simp only
    rw [find?_map_replace sid ss _ h]
    rfl
  · rw [if_neg h]
    simp only
    rw [List.find?_append]
    have : db.station_state.find? (fun p => p.1 == sid) = none := by
      cases hf : db.station_state.find? (fun p => p.1 == sid) with
      | none => rfl
      | some v => rw [hf] at h; simp at h
    rw [this]
    simp [List.find?]

/-! ## C1/C2 concrete runs -/

/-- A station configured with a top-of-the-hour directory. -/
def cfgToth : StationConfig :=
  { name := "KTOTH", freq := 90, top_of_the_hour := "/toth/" }

/-- Store for the C1 run: one `top_of_hour` media under the station's toth
dir, linked to station 1; no state row yet (first advance). -/
def dbToth : DB :=
  { media := [{ id := 7, path := "/toth/hour.mp3", kind := "top_of_hour",
                duration_s := some 5 }]
    station_media := [(1, 7)]
    stations := [("KTOTH", 1)]
    station_state := []
    plays := [] }

/-- A plain station for the C2 run. -/
def cfgQ : StationConfig := { name := "KQ", freq := 91 }

/-- Store for the C2 run: the persisted queue references media id 42, whose
media row is missing; the current item has ended (ends_ts 200 < now 300). -/
def dbQ : DB :=
  { media := []
    station_media := []
    stations := [("KQ", 1)]
    station_state := [(1,
      { current_media_id := some 42, kind := some "song",
        started_ts := some 100, ends_ts := some 200,
        queue_json := some [42], queue_index := 0 })]
    plays := [] }

/-- C1: the top-of-hour advance cannot stamp `last_toth_slot_ts`.
(a) On a fresh station (no state row) whose toth branch finds a jingle, the
advance raises `TypeError`: `Scheduler._advance_station` passes the keyword
`last_toth_slot_ts` to `helpers.set_station_state`, whose parameter list does
not have it; nothing is played and nothing is stamped.
(b) With an existing state row, the advance aborts even earlier, reading
`st["last_toth_slot_ts"]` from a row whose SELECT (in
`helpers.get_station_state`) does not include that column. -/
theorem advance_toth_aborts :
    advance_station headOracles dbToth 1 "KTOTH" cfgToth ["pop"]
        5000 7200 3600 false none 4 4 []
      = .error "TypeError: set_station_state() got an unexpected keyword argument" ∧
    advance_station headOracles dbQ 1 "KQ" cfgQ ["pop"]
        300 3600 0 false none 4 4 []
      = .error "IndexError: No item with that key: last_toth_slot_ts" :=
  ⟨by decide, by decide⟩

/-- C2: when the persisted queue references a missing media row, the advance
(a) runs the "clear" that does *not* clear: `update_station_flags` is passed
`queue_json=None`, which its `is not None` guard skips, so `queue_json`
remains `[42]` (only `queue_index` is reset), and
(b) then aborts with `IndexError` instead of falling through: the defaults
block reads `st["last_toth_slot_ts"]`, a column `get_station_state`'s SELECT
does not include. -/
theorem advance_missing_media_aborts :
    (state_of (update_station_flags dbQ 1 none none none none none (some 0)) 1).map
        (fun ss => ss.queue_json)
      = some (some [42]) ∧
    advance_station headOracles dbQ 1 "KQ" cfgQ ["pop"]
        300 3600 0 false none 4 4 []
      = .error "IndexError: No item with that key: last_toth_slot_ts" :=
  ⟨by decide, by decide⟩

/-- The pending-break flag of a station as the marker reads it (0 when the
station has no state row yet). -/
def pendingOf (db : DB) (sid : ℤ) : ℤ :=
  ((state_of db sid).map (fun ss => ss.pending_break)).getD 0

/-- The last-break timestamp of a station (0 when the station has no state
row yet). -/
def lastBreakOf (db : DB) (sid : ℤ) : ℚ :=
  ((state_of db sid).map (fun ss => ss.last_break_ts)).getD 0

/-- C6: for a station with `break_frequency_s > 0`, `_maybe_mark_break_due`
(the marking step `tick_all` runs for every station) sets `pending_break = 1`
exactly when the flag is not already set and `now_ts − last_break_ts ≥
break_frequency_s`; it never touches `last_break_ts`.  Consequently, once a
break fires and `last_break_ts` is set to the break's start time with
`pending_break` cleared, the flag cannot be re-raised before
`last_break_ts + break_frequency_s`: until then the marker returns the store
unchanged. -/
theorem maybe_mark_break_due_spec (db : DB) (cfg : StationConfig) (sid : ℤ)
    (now_ts : ℚ) (hfreq : 0 < cfg.break_frequency_s) :
    ∃ db2, maybe_mark_break_due db cfg sid now_ts = .ok db2 ∧
      (pendingOf db sid ≠ 0 → db2 = db) ∧
      ((pendingOf db sid = 0 ∧
          now_ts - lastBreakOf db sid < (cfg.break_frequency_s : ℚ)) → db2 = db) ∧
      ((pendingOf db sid = 0 ∧
          (cfg.break_frequency_s : ℚ) ≤ now_ts - lastBreakOf db sid) →
        (state_of db2 sid).map (fun ss => ss.pending_break) = some 1 ∧
        (state_of db2 sid).map (fun ss => ss.last_break_ts)
          = some (lastBreakOf db sid)) := by
  have hnle : ¬ cfg.break_frequency_s ≤ 0 := not_le.mpr hfreq
  cases hso : state_of db sid with
  | none =>
    have hgss : get_station_state db sid = none := by
      unfold get_station_state; rw [hso]; rfl
    by_cases hel : (cfg.break_frequency_s : ℚ) ≤ now_ts
    · refine ⟨putState db sid { pending_break := 1, last_break_ts := 0 }, ?_, ?_, ?_, ?_⟩
      · simp only [maybe_mark_break_due, hgss, if_neg hnle, pure_bind, ok_bind]
        simp [hel]
      · intro hp
        exfalso
        unfold pendingOf at hp
        rw [hso] at hp
        simp at hp
      · intro ⟨_, hlt⟩
        exfalso
        unfold lastBreakOf at hlt
        rw [hso] at hlt
        simp at hlt
        linarith
      · intro _
        rw [state_of_putState]
        unfold lastBreakOf
        rw [hso]
        exact ⟨rfl, rfl⟩
    · refine ⟨db, ?_, fun _ => rfl, fun _ => rfl, ?_⟩
      · simp only [maybe_mark_break_due, hgss, if_neg hnle, pure_bind, ok_bind]
        simp [hel]
      · intro ⟨_, hge⟩
        exfalso
        unfold lastBreakOf at hge
        rw [hso] at hge
        simp at hge
        linarith
  | some ss =>
    have hgss : get_station_state db sid = some (state_row_view db sid ss) := by
      unfold get_station_state; rw [hso]; rfl
    have hpend : pendingOf db sid = ss.pending_break := by
      unfold pendingOf; rw [hso]; rfl
    have hlast : lastBreakOf db sid = ss.last_break_ts := by
      unfold lastBreakOf; rw [hso]; rfl
    by_cases hp : ss.pending_break = 0
    · by_cases hel : (cfg.break_frequency_s : ℚ) ≤ now_ts - ss.last_break_ts
      · refine ⟨putState db sid { ss with pending_break := 1 }, ?_, ?_, ?_, ?_⟩
        · simp only [maybe_mark_break_due, hgss, if_neg hnle, pure_bind, ok_bind,
            rowGet_view_pending, rowGet_view_last_break, intOr0_int, floatOr0_real]
          simp only [hp, hel]
          simp [update_station_flags, hso]
        · intro hpp
          rw [hpend] at hpp
          exact absurd hp hpp
        · intro ⟨_, hlt⟩
          rw [hlast] at hlt
          linarith
        · intro _
          rw [state_of_putState, hlast]
          exact ⟨rfl, rfl⟩
      · refine ⟨db, ?_, fun _ => rfl, fun _ => rfl, ?_⟩
        · simp only [maybe_mark_break_due, hgss, if_neg hnle, pure_bind, ok_bind,
            rowGet_view_pending, rowGet_view_last_break, intOr0_int, floatOr0_real]
          simp [hp, hel]
        · intro ⟨_, hge⟩
          rw [hlast] at hge
          exact absurd hge hel
    · refine ⟨db, ?_, fun _ => rfl, fun _ => rfl, ?_⟩
      · simp only [maybe_mark_break_due, hgss, if_neg hnle, pure_bind, ok_bind,
          rowGet_view_pending, rowGet_view_last_break, intOr0_int, floatOr0_real]
        simp [hp]
      · intro ⟨hpp, _⟩
        rw [hpend] at hpp
        exact absurd hpp hp

/-- A station with a 600-second break cadence. -/
def cfgBreak : StationConfig := { name := "KB", freq := 1, break_frequency_s := 600 }

/-- C6 witness: the marking specification evaluated on a fresh station at
`now_ts = 1000`. -/
theorem maybe_mark_break_due_spec_witness :
    0 < (600 : ℤ) ∧
    (∃ db2, maybe_mark_break_due dbToth cfgBreak 1 1000 = .ok db2 ∧
      (pendingOf dbToth 1 ≠ 0 → db2 = dbToth) ∧
      ((pendingOf dbToth 1 = 0 ∧
          1000 - lastBreakOf dbToth 1 < (cfgBreak.break_frequency_s : ℚ)) →
        db2 = dbToth) ∧
      ((pendingOf dbToth 1 = 0 ∧
          (cfgBreak.break_frequency_s : ℚ) ≤ 1000 - lastBreakOf dbToth 1) →
        (state_of db2 1).map (fun ss => ss.pending_break) = some 1 ∧
        (state_of db2 1).map (fun ss => ss.last_break_ts)
          = some (lastBreakOf dbToth 1))) :=
  ⟨by norm_num, maybe_mark_break_due_spec dbToth cfgBreak 1 1000 (by decide)⟩

/-- Every `set_station_state` call in `_advance_station` raises: the twelve
keywords it passes include `last_toth_slot_ts`, which the function does not
accept. -/
theorem call_advance_error (db : DB) (sid : ℤ) (a : SetStationStateArgs) :
    call_set_station_state db sid advance_set_state_kwargs a
      = .error "TypeError: set_station_state() got an unexpected keyword argument" := by
  unfold call_set_station_state
  rw [if_neg (by decide)]

/-- `update_station_flags(force_ident_next=0)` on the state table. -/
theorem update_force_zero (db : DB) (sid : ℤ) :
    state_of (update_station_flags db sid none none (some 0) none none none) sid
      = (state_of db sid).map (fun ss => { ss with force_ident_next := 0 }) := by
  cases hso : state_of db sid with
  | none =>
    have h : update_station_flags db sid none none (some 0) none none none = db := by
      unfold update_station_flags; rw [hso]
    rw [h, hso]
    rfl
  | some ss =>
    have h : update_station_flags db sid none none (some 0) none none none
        = putState db sid { ss with force_ident_next := 0 } := by
      unfold update_station_flags
      rw [hso]
      rfl
    rw [h, state_of_putState]
    rfl

/-- C7 part (ii), as a standalone lemma: after any consuming overlay attempt
(`_overlay_if_due` with `consume=True`, its row argument the station's own
`get_station_state` row), the persisted `force_ident_next` is 0 — the flag is
cleared whenever the opportunity is inapplicable (no overlays dir, no
matching media) or consumed, and it was already 0 in every other case. -/
theorem overlay_attempt_leaves_force_clear (orc : Oracles) (db : DB)
    (cfg : StationConfig) (sid : ℤ) (entry : Option ScheduleEntry)
    (db2 : DB) (ov : Option OverlayIdent)
    (hrun : overlay_if_due orc db cfg sid (get_station_state db sid) entry true
      = .ok (db2, ov)) :
    ∀ ss2, state_of db2 sid = some ss2 → ss2.force_ident_next = 0 := by
  intro ss2 hss2
  cases hso : state_of db sid with
  | none =>
    -- no state row: whatever `overlay_if_due` returns leaves the store
    -- without a row for `sid` (its only write is a no-op UPDATE), so the
    -- premise `state_of db2 sid = some ss2` is impossible
    have hgss : get_station_state db sid = none := by
      unfold get_station_state; rw [hso]; rfl
    rw [hgss] at hrun
    unfold overlay_if_due at hrun
    have hupd : update_station_flags db sid none none (some 0) none none none = db := by
      unfold update_station_flags; rw [hso]
    simp only [reduceIte, pure_bind, ok_bind, pure_ok, hupd, ne_eq, not_true_eq_false,
      Bool.false_eq_true, if_false] at hrun
    have hdb2 : db2 = db := by
      rcases hentry : entry with _ | e
      · rw [hentry] at hrun
        simp at hrun
        exact hrun.1.symm
      · rw [hentry] at hrun
        by_cases hdir : e.overlays_dir = ""
        · simp [hdir] at hrun
          exact hrun.1.symm
        · simp only [show (e.overlays_dir == "") = false from by simp [hdir],
            Bool.false_eq_true, if_false] at hrun
          cases hpick : random_station_media_filtered orc.pickOverlay db sid "overlay"
              e.overlays_dir with
          | none =>
            rw [hpick] at hrun
            simp at hrun
            exact hrun.1.symm
          | some m =>
            rw [hpick] at hrun
            by_cases hp1 : 0 < e.overlays_probability
            · by_cases hd1 : orc.draw < e.overlays_probability
              · simp [hp1, hd1, hupd] at hrun
                exact hrun.1.symm
              · simp [hp1, hd1] at hrun
                exact hrun.1.symm
            · simp [hp1] at hrun
              exact hrun.1.symm
    rw [hdb2, hso] at hss2
    exact Option.noConfusion hss2
  | some ss =>
    have hgss : get_station_state db sid = some (state_row_view db sid ss) := by
      unfold get_station_state; rw [hso]; rfl
    rw [hgss] at hrun
    unfold overlay_if_due at hrun
    have hupd : state_of (update_station_flags db sid none none (some 0) none none none) sid
        = some { ss with force_ident_next := 0 } := by
      rw [update_force_zero, hso]; rfl
    simp only [reduceIte, pure_bind, ok_bind, pure_ok, rowGet_view_force, intOr0_int]
      at hrun
    -- in every branch db2 is either the store with the flag zeroed, or the
    -- untouched store in a case where the flag was already 0
    have hout : db2 = update_station_flags db sid none none (some 0) none none none
        ∨ (db2 = db ∧ ss.force_ident_next = 0) := by
      by_cases hf : ss.force_ident_next = 0
      · simp only [hf, ne_eq, not_true_eq_false, Bool.false_eq_true, if_false,
          reduceIte] at hrun
        rcases hentry : entry with _ | e
        · rw [hentry] at hrun
          simp at hrun
          exact Or.inr ⟨hrun.1.symm, hf⟩
        · rw [hentry] at hrun
          by_cases hdir : e.overlays_dir = ""
          · simp [hdir] at hrun
            exact Or.inr ⟨hrun.1.symm, hf⟩
          · simp only [show (e.overlays_dir == "") = false from by simp [hdir],
              Bool.false_eq_true, if_false] at hrun
            cases hpick : random_station_media_filtered orc.pickOverlay db sid "overlay"
                e.overlays_dir with
            | none =>
              rw [hpick] at hrun
              simp at hrun
              exact Or.inr ⟨hrun.1.symm, hf⟩
            | some m =>
              rw [hpick] at hrun
              by_cases hp1 : 0 < e.overlays_probability
              · by_cases hd1 : orc.draw < e.overlays_probability
                · simp [hp1, hd1] at hrun
                  exact Or.inl hrun.1.symm
                · simp [hp1, hd1] at hrun
                  exact Or.inr ⟨hrun.1.symm, hf⟩
              · simp [hp1] at hrun
                exact Or.inr ⟨hrun.1.symm, hf⟩
      · have hf' : (ss.force_ident_next ≠ 0) = True := by simp [hf]
        simp only [hf', reduceIte] at hrun
        rcases hentry : entry with _ | e
        · rw [hentry] at hrun
          simp at hrun
          exact Or.inl hrun.1.symm
        · rw [hentry] at hrun
          by_cases hdir : e.overlays_dir = ""
          · simp [hdir] at hrun
            exact Or.inl hrun.1.symm
          · simp only [show (e.overlays_dir == "") = false from by simp [hdir],
              Bool.false_eq_true, if_false] at hrun
            cases hpick : random_station_media_filtered orc.pickOverlay db sid "overlay"
                e.overlays_dir with
            | none =>
              rw [hpick] at hrun
              simp at hrun
              exact Or.inl hrun.1.symm
            | some m =>
              rw [hpick] at hrun
              simp at hrun
              exact Or.inl hrun.1.symm
    rcases hout with h | ⟨h, hf⟩
    · rw [h, hupd] at hss2
      cases hss2
      rfl
    · rw [h, hso] at hss2
      cases hss2
      exact hf

/-- With an existing state row, `_advance_station` never succeeds: every path
either reads the missing `last_toth_slot_ts` column (IndexError) or calls
`set_station_state` with the rejected keyword (TypeError). -/
theorem advance_some_state_errors (orc : Oracles) (db : DB) (sid : ℤ)
    (name : String) (cfg : StationConfig) (tags : List String)
    (now_ts slot_end_ts slot_start_ts : ℚ) (active : Bool)
    (entry : Option ScheduleEntry) (bs fs : ℚ) (tr : List ℤ)
    (ss : StationStateRow) (hso : state_of db sid = some ss) (r : DB × NowPlaying)
    (h : advance_station orc db sid name cfg tags now_ts slot_end_ts slot_start_ts
        active entry bs fs tr = .ok r) : False := by
  have hgss : get_station_state db sid = some (state_row_view db sid ss) := by
    unfold get_station_state; rw [hso]; rfl
  unfold advance_station at h
  rw [hgss] at h
  simp only [rowGet_view_queue_json, rowGet_view_queue_index, rowGet_view_pending,
    rowGet_view_last_break, rowGet_view_force, rowGet_view_last_ident,
    rowGet_view_toth, intOr0_int, floatOr0_real, ok_bind, error_bind, pure_bind,
    pure_ok] at h
  cases hq : ss.queue_json with
  | none =>
    rw [hq] at h
    simp only [optJarrV, truthy, Bool.false_eq_true, if_false, ok_bind,
      error_bind, pure_ok] at h
    exact Except.noConfusion h
  | some l =>
    rw [hq] at h
    simp only [optJarrV, truthy, reduceIte, ok_bind, error_bind, pure_bind,
      pure_ok] at h
    by_cases hidx : ss.queue_index < (l.length : ℤ)
    · rw [if_pos hidx] at h
      cases hmid : media_by_id db (l.getD ss.queue_index.toNat 0) with
      | some item =>
        rw [hmid] at h
        simp only [ok_bind, error_bind] at h
        exact Except.noConfusion h
      | none =>
        rw [hmid] at h
        simp only [ok_bind, error_bind, pure_ok] at h
        exact Except.noConfusion h
    · rw [if_neg hidx] at h
      simp only [ok_bind, error_bind, pure_ok] at h
      exact Except.noConfusion h

/-- With no state row, the only successful advance is the noise fallback
(all the playing branches call `set_station_state` and raise); in particular
no overlay can be attached to an advance result. -/
theorem advance_no_state_overlay_none (orc : Oracles) (db : DB) (sid : ℤ)
    (name : String) (cfg : StationConfig) (tags : List String)
    (now_ts slot_end_ts slot_start_ts : ℚ) (active : Bool)
    (entry : Option ScheduleEntry) (bs fs : ℚ) (tr : List ℤ)
    (hso : state_of db sid = none) (db2 : DB) (np : NowPlaying)
    (h : advance_station orc db sid name cfg tags now_ts slot_end_ts slot_start_ts
        active entry bs fs tr = .ok (db2, np)) :
    np.ident_overlay = none ∧ np.kind = "noise" := by
  have hgss : get_station_state db sid = none := by
    unfold get_station_state; rw [hso]; rfl
  unfold advance_station at h
  rw [hgss] at h
  simp only [ok_bind, error_bind, pure_bind, pure_ok, ne_eq, not_true_eq_false,
    false_and, if_false, reduceIte] at h
  by_cases hc1 : cfg.top_of_the_hour ≠ "" ∧ (0 : ℚ) ≠ slot_start_ts
  · rw [if_pos hc1] at h
    cases hpick : random_station_media_filtered orc.pickToth db sid "top_of_hour"
        cfg.top_of_the_hour with
    | some toth_item =>
      rw [hpick] at h
      simp only [call_advance_error, error_bind, ok_bind] at h
      exact absurd h (by simp)
    | none =>
      rw [hpick] at h
      simp only [ok_bind, pure_ok] at h
      cases hsong : pick_best_fit_song orc db tags (max 0 (slot_end_ts - now_ts))
          600 30 true 12 tr with
      | some song =>
        rw [hsong] at h
        cases hpi : random_station_media orc.pickIdent db sid "ident" with
        | some ident_item =>
          rw [hpi] at h
          simp only [should_queue_ident, ok_bind, pure_bind, pure_ok, ite_bind,
            call_advance_error, error_bind, ite_self] at h
          exact absurd h (by simp)
        | none =>
          rw [hpi] at h
          simp only [should_queue_ident, ok_bind, pure_bind, pure_ok, ite_bind,
            call_advance_error, error_bind, ite_self] at h
          exact absurd h (by simp)
      | none =>
        rw [hsong] at h
        simp only [ok_bind, pure_ok] at h
        cases hqi : build_ident_plus_commercials_queue orc db sid
            (max 0 (slot_end_ts - now_ts)) fs false with
        | nil =>
          rw [hqi] at h
          simp only [pure_ok] at h
          simp at h
          obtain ⟨-, h2⟩ := h
          rw [← h2]
          exact ⟨rfl, rfl⟩
        | cons first_id rest =>
          rw [hqi] at h
          simp only [call_advance_error, error_bind] at h
          exact absurd h (by simp)
  · rw [if_neg hc1] at h
    simp only [ok_bind, pure_ok] at h
    cases hsong : pick_best_fit_song orc db tags (max 0 (slot_end_ts - now_ts))
        600 30 true 12 tr with
    | some song =>
      rw [hsong] at h
      cases hpi : random_station_media orc.pickIdent db sid "ident" with
      | some ident_item =>
        rw [hpi] at h
        simp only [should_queue_ident, ok_bind, pure_bind, pure_ok, ite_bind,
          call_advance_error, error_bind, ite_self] at h
        exact absurd h (by simp)
      | none =>
        rw [hpi] at h
        simp only [should_queue_ident, ok_bind, pure_bind, pure_ok, ite_bind,
          call_advance_error, error_bind, ite_self] at h
        exact absurd h (by simp)
    | none =>
      rw [hsong] at h
      simp only [ok_bind, pure_ok] at h
      cases hqi : build_ident_plus_commercials_queue orc db sid
          (max 0 (slot_end_ts - now_ts)) fs false with
      | nil =>
        rw [hqi] at h
        simp only [pure_ok] at h
        simp at h
        obtain ⟨-, h2⟩ := h
        rw [← h2]
        exact ⟨rfl, rfl⟩
      | cons first_id rest =>
        rw [hqi] at h
        simp only [call_advance_error, error_bind] at h
        exact absurd h (by simp)

/-- C7 part (i), as a standalone lemma: when `ensure_station_current`
succeeds and its `NowPlaying` carries an overlay, then `active` was true, the
current kind is `song`, and the seek position is within the 0.25 s start
window. -/
theorem ensure_overlay_guard (orc : Oracles) (db : DB) (cfg : StationConfig)
    (sid : ℤ) (name : String) (now_ts : ℚ) (active : Bool)
    (entry : ScheduleEntry) (slot_end_ts slot_start_ts : ℚ) (bs fs : ℚ)
    (tr : List ℤ) (db2 : DB) (np : NowPlaying)
    (h : ensure_station_current orc db cfg sid name now_ts active entry
        slot_end_ts slot_start_ts bs fs tr = .ok (db2, np))
    (hov : np.ident_overlay.isSome = true) :
    active = true ∧ np.kind = "song" ∧ np.seek_s ≤ 1/4 := by
  unfold ensure_station_current at h
  by_cases ht : entry.tags.isEmpty = true
  · rw [if_pos ht] at h
    simp at h
    obtain ⟨-, h2⟩ := h
    rw [← h2] at hov
    simp at hov
  · rw [if_neg ht] at h
    cases hso : state_of db sid with
    | none =>
      have hgss : get_station_state db sid = none := by
        unfold get_station_state; rw [hso]; rfl
      rw [hgss] at h
      simp only [pure_bind, ok_bind, pure_ok] at h
      have := advance_no_state_overlay_none orc db sid name cfg entry.tags now_ts
        slot_end_ts slot_start_ts active (some entry) bs fs tr hso db2 np h
      rw [this.1] at hov
      simp at hov
    | some ss =>
      have hgss : get_station_state db sid = some (state_row_view db sid ss) := by
        unfold get_station_state; rw [hso]; rfl
      rw [hgss] at h
      simp only [pure_bind, ok_bind, pure_ok, rowGet_view_kind, rowGet_view_ends,
        rowGet_view_path, rowGet_view_started, rowGet_view_cmid,
        floatOr0_optReal, floatOrD_optReal] at h
      by_cases hcond : strOrEmpty (optTextV ss.kind) ≠ "" ∧
          strOrEmpty (optTextV ss.kind) ≠ "noise" ∧ now_ts < ss.ends_ts.getD 0 ∧
          truthy (optTextV ((ss.current_media_id.bind (media_by_id db)).map
            (fun m => m.path))) = true
      · rw [if_pos hcond] at h
        by_cases hg : strOrEmpty (optTextV ss.kind) = "song" ∧ active = true ∧
            (max 0 (now_ts - (match ss.started_ts with
              | some q => if q = 0 then now_ts else q
              | none => now_ts))) ≤ mkRat 1 4
        · rw [if_pos hg] at h
          cases hoid : overlay_if_due orc db cfg sid (some (state_row_view db sid ss))
              (some entry) true with
          | error e =>
            rw [hoid] at h
            simp only [error_bind] at h
            exact absurd h (by simp)
          | ok r =>
            rw [hoid] at h
            simp only [ok_bind, pure_ok] at h
            simp at h
            obtain ⟨-, h2⟩ := h
            rw [← h2]
            refine ⟨hg.2.1, hg.1, ?_⟩
            have hq : (mkRat 1 4 : ℚ) = 1/4 := by
              rw [Rat.mkRat_eq_div]
              norm_num
            rw [← hq]
            exact hg.2.2
        · rw [if_neg hg] at h
          simp only [ok_bind, pure_ok] at h
          simp at h
          obtain ⟨-, h2⟩ := h
          rw [← h2] at hov
          simp at hov
      · rw [if_neg hcond] at h
        simp only [ok_bind, pure_ok] at h
        exact absurd h (fun hh => advance_some_state_errors orc db sid name cfg
          entry.tags now_ts slot_end_ts slot_start_ts active (some entry) bs fs tr
          ss hso (db2, np) hh)

/-- C7 (amended): an overlay is emitted only when `active=true`, the current
kind is `song` and the seek position is within the 0.25 s start window (at
most one per `ensure_station_current` call); and after any consuming overlay
attempt the persisted `force_ident_next` flag is 0 — cleared when the
opportunity is consumed or inapplicable, never left latched.  (The original
claim's "at most once per song-start event" fails for probability-driven
overlays: see the counterexample, where two calls inside the same song's
start window each emit an overlay.) -/
theorem overlay_guard_and_flag_spec :
    (∀ (orc : Oracles) (db : DB) (cfg : StationConfig) (sid : ℤ) (name : String)
        (now_ts : ℚ) (active : Bool) (entry : ScheduleEntry)
        (slot_end_ts slot_start_ts bs fs : ℚ) (tr : List ℤ) (db2 : DB)
        (np : NowPlaying),
      ensure_station_current orc db cfg sid name now_ts active entry
          slot_end_ts slot_start_ts bs fs tr = .ok (db2, np) →
      np.ident_overlay.isSome = true →
      active = true ∧ np.kind = "song" ∧ np.seek_s ≤ 1/4) ∧
    (∀ (orc : Oracles) (db : DB) (cfg : StationConfig) (sid : ℤ)
        (entry : Option ScheduleEntry) (db2 : DB) (ov : Option OverlayIdent),
      overlay_if_due orc db cfg sid (get_station_state db sid) entry true
          = .ok (db2, ov) →
      ∀ ss2, state_of db2 sid = some ss2 → ss2.force_ident_next = 0) :=
  ⟨fun orc db cfg sid name now_ts active entry se sls bs fs tr db2 np h hov =>
      ensure_overlay_guard orc db cfg sid name now_ts active entry se sls bs fs
        tr db2 np h hov,
   fun orc db cfg sid entry db2 ov h =>
      overlay_attempt_leaves_force_clear orc db cfg sid entry db2 ov h⟩

/-- A station whose schedule entry carries an overlays dir with
probability 1. -/
def cfgOv : StationConfig := { name := "KOV", freq := 95 }

def entryOv : ScheduleEntry :=
  { tags := ["pop"], overlays_dir := "/ov/", overlays_probability := 1 }

/-- The state row of the C7 counterexample: a song started at t=1000,
current until t=1180. -/
def ssOv : StationStateRow :=
  { current_media_id := some 10, kind := some "song",
    started_ts := some 1000, ends_ts := some 1180 }

/-- Store for the C7 counterexample: the song of `ssOv` is current; an
overlay media lives under the entry's overlays dir. -/
def dbOv : DB :=
  { media := [{ id := 10, path := "/songs/a.mp3", kind := "song",
                duration_s := some 180 },
              { id := 20, path := "/ov/x.mp3", kind := "overlay",
                duration_s := some 5 }]
    station_media := [(1, 20)]
    stations := [("KOV", 1)]
    station_state := [(1, ssOv)]
    plays := [] }

/-- Any active `ensure_station_current` call on `dbOv` inside the song's
0.25 s start window emits an overlay and returns the store unchanged
(`force_ident_next` was already 0). -/
theorem ensure_dbOv_run (now : ℚ) (h2 : now - 1000 ≤ mkRat 1 4) (h3 : now < 1180) :
    ensure_station_current headOracles dbOv cfgOv 1 "KOV" now true entryOv
        4000 3600 4 4 []
      = .ok (dbOv,
        { station := "KOV", kind := "song", path := some "/songs/a.mp3",
          media_id := some 10, started_ts := 1000, ends_ts := 1180,
          seek_s := max 0 (now - 1000), slot_end_ts := 4000,
          ident_overlay := some { path := "/ov/x.mp3", at_s := 0
                                  duck := mkRat 2 5, ramp_s := mkRat 1 2 } }) := by
  have hgss : get_station_state dbOv 1 = some (state_row_view dbOv 1 ssOv) := by
    decide
  have hoid : overlay_if_due headOracles dbOv cfgOv 1
      (some (state_row_view dbOv 1 ssOv)) (some entryOv) true
      = .ok (dbOv, some { path := "/ov/x.mp3", at_s := 0
                          duck := mkRat 2 5, ramp_s := mkRat 1 2 }) := by
    decide
  unfold ensure_station_current
  rw [if_neg (show ¬ entryOv.tags.isEmpty = true from by decide), hgss]
  simp only [pure_bind, ok_bind, pure_ok, rowGet_view_kind, rowGet_view_ends,
    rowGet_view_path, rowGet_view_started, rowGet_view_cmid,
    floatOr0_optReal, floatOrD_optReal, ssOv, Option.getD_some]
  rw [if_pos (show _ from ⟨by decide, by decide, h3, by decide⟩)]
  rw [if_pos (show _ from ⟨by decide, trivial, max_le (by decide) h2⟩)]
  simp only [ssOv] at hoid
  rw [hoid]
  rfl

/-- C7 counterexample: with `overlays_probability = 1`, two consecutive
active `ensure_station_current` calls during the same song's 0.25 s start
window (seek 0 s, then 0.2 s; the first call returns the store unchanged, so
the second call runs on the store the first one produced) **both** emit an
overlay for the same song instance, refuting "at most once per song-start
event". -/
theorem overlay_twice_per_song_start_cex :
    ∃ np1 np2 : NowPlaying,
      ensure_station_current headOracles dbOv cfgOv 1 "KOV" 1000 true entryOv
          4000 3600 4 4 [] = .ok (dbOv, np1) ∧
      ensure_station_current headOracles dbOv cfgOv 1 "KOV" (5001/5) true entryOv
          4000 3600 4 4 [] = .ok (dbOv, np2) ∧
      np1.kind = "song" ∧ np2.kind = "song" ∧
      np1.started_ts = np2.started_ts ∧
      np1.ident_overlay.isSome = true ∧ np2.ident_overlay.isSome = true := by
  refine ⟨_, _, ensure_dbOv_run 1000 (by norm_num [Rat.mkRat_eq_div]) (by norm_num),
    ensure_dbOv_run (5001/5) (by norm_num [Rat.mkRat_eq_div]) (by norm_num),
    rfl, rfl, rfl, rfl, rfl⟩

/-! ## C5 — the ident-plus-commercials queue builder -/

/-- Invariant of the greedy commercials loop: it only appends ids of offered
rows whose duration exceeds 0.1 s, and its accumulated total never exceeds
`max total max_total` (it can exceed `max_total` only if it already did on
entry). -/
theorem queue_loop_spec (M : ℚ) (cs : List MediaRow) :
    ∀ (total : ℚ) (q : List ℤ),
    ∃ sfx,
      (queue_commercials_loop M cs total q).1 = q ++ sfx ∧
      (∀ i ∈ sfx, ∃ c, c ∈ cs ∧ c.id = i ∧ mkRat 1 10 < c.duration_s.getD 0) ∧
      (queue_commercials_loop M cs total q).2 ≤ max total M := by
  induction cs with
  | nil =>
    intro total q
    exact ⟨[], by simp [queue_commercials_loop], by simp, le_max_left _ _⟩
  | cons c cs ih =>
    intro total q
    by_cases hM : M ≤ total
    · refine ⟨[], ?_, by simp, ?_⟩
      · simp [queue_commercials_loop, hM]
      · simp only [queue_commercials_loop, if_pos hM]
        exact le_max_left _ _
    · by_cases hd : c.duration_s.getD 0 ≤ mkRat 1 10
      · obtain ⟨sfx, ha, hb, hc⟩ := ih total q
        refine ⟨sfx, ?_, ?_, ?_⟩
        · simpa [queue_commercials_loop, hM, hd] using ha
        · intro i hi
          obtain ⟨cc, hcc, rest⟩ := hb i hi
          exact ⟨cc, List.mem_cons_of_mem _ hcc, rest⟩
        · simpa [queue_commercials_loop, hM, hd] using hc
      · by_cases hadd : total + c.duration_s.getD 0 ≤ M
        · obtain ⟨sfx, ha, hb, hc⟩ := ih (total + c.duration_s.getD 0) (q ++ [c.id])
          have hstep : queue_commercials_loop M (c :: cs) total q
              = queue_commercials_loop M cs (total + c.duration_s.getD 0) (q ++ [c.id]) := by
            simp [queue_commercials_loop, hM, hd, hadd]
          refine ⟨c.id :: sfx, ?_, ?_, ?_⟩
          · rw [hstep, ha]
            simp
          · intro i hi
            rcases List.mem_cons.mp hi with h | h
            · exact ⟨c, List.mem_cons_self _ _, h.symm, not_le.mp hd⟩
            · obtain ⟨cc, hcc, rest⟩ := hb i h
              exact ⟨cc, List.mem_cons_of_mem _ hcc, rest⟩
          · rw [hstep]
            exact hc.trans (max_le (hadd.trans (le_max_right _ _)) (le_max_right _ _))
        · obtain ⟨sfx, ha, hb, hc⟩ := ih total q
          refine ⟨sfx, ?_, ?_, ?_⟩
          · simpa [queue_commercials_loop, hM, hd, hadd] using ha
          · intro i hi
            obtain ⟨cc, hcc, rest⟩ := hb i hi
            exact ⟨cc, List.mem_cons_of_mem _ hcc, rest⟩
          · simpa [queue_commercials_loop, hM, hd, hadd] using hc

/-- A shuffle that honours "reorders without inventing rows" maps the empty
list to itself. -/
theorem shuffle_nil_of_sub (f : List MediaRow → List MediaRow)
    (hf : ∀ x ∈ f [], x ∈ ([] : List MediaRow)) : f [] = [] := by
  cases h : f [] with
  | nil => rfl
  | cons a t =>
    exact absurd (hf a (by rw [h]; exact List.mem_cons_self a t)) (List.not_mem_nil a)

/-- C5 (amended): for well-formed randomness (picks pick offered rows,
reorders reorder), the builder's queue is an optional leading ident —
prepended without any budget check — followed by genuine commercials of
duration > 0.1 s whose greedy accumulation keeps the loop's running total
within `max t0 (max 0 target_s + slop_s)`; the claimed bound
`target_s + slop_s` holds for the commercials part only, not for the leading
ident. -/
theorem build_queue_spec (orc : Oracles) (db : DB) (sid : ℤ)
    (target_s slop_s : ℚ) (skip_leading_ident : Bool)
    (hpick : ∀ l r, orc.pickIdent l = some r → r ∈ l)
    (hord : ∀ l x, x ∈ orc.poolOrder l → x ∈ l)
    (hshuf : ∀ l x, x ∈ orc.shuffle l → x ∈ l) :
    ∃ pre t0 cq,
      build_ident_plus_commercials_queue orc db sid target_s slop_s skip_leading_ident
        = pre ++ cq ∧
      ((pre = ([] : List ℤ) ∧ t0 = (0 : ℚ)) ∨
        (skip_leading_ident = false ∧ ∃ ident,
          random_station_media orc.pickIdent db sid "ident" = some ident ∧
          ident ∈ station_media_candidates db sid "ident" ∧
          pre = [ident.id] ∧ t0 = ident.duration_s.getD 0)) ∧
      (∀ i ∈ cq, ∃ c, c ∈ station_media_candidates db sid "commercial" ∧
          c.id = i ∧ mkRat 1 10 < c.duration_s.getD 0) ∧
      (queue_commercials_loop (max 0 target_s + slop_s)
          (orc.shuffle (station_media_pool orc.poolOrder db sid "commercial" 800))
          t0 pre).2
        ≤ max t0 (max 0 target_s + slop_s) := by
  have hpool : ∀ x ∈ orc.shuffle (station_media_pool orc.poolOrder db sid "commercial" 800),
      x ∈ station_media_candidates db sid "commercial" := by
    intro x hx
    have hx2 := hshuf _ _ hx
    simp only [station_media_pool] at hx2
    exact hord _ _ (List.take_subset _ _ hx2)
  have hmain : ∀ (pre : List ℤ) (t0 : ℚ),
      build_ident_plus_commercials_queue orc db sid target_s slop_s skip_leading_ident
        = (queue_commercials_loop (max 0 target_s + slop_s)
            (orc.shuffle (station_media_pool orc.poolOrder db sid "commercial" 800))
            t0 pre).1 →
      ∃ cq,
        build_ident_plus_commercials_queue orc db sid target_s slop_s skip_leading_ident
          = pre ++ cq ∧
        (∀ i ∈ cq, ∃ c, c ∈ station_media_candidates db sid "commercial" ∧
            c.id = i ∧ mkRat 1 10 < c.duration_s.getD 0) ∧
        (queue_commercials_loop (max 0 target_s + slop_s)
            (orc.shuffle (station_media_pool orc.poolOrder db sid "commercial" 800))
            t0 pre).2
          ≤ max t0 (max 0 target_s + slop_s) := by
    intro pre t0 hb
    obtain ⟨sfx, h1, h2, h3⟩ := queue_loop_spec (max 0 target_s + slop_s)
      (orc.shuffle (station_media_pool orc.poolOrder db sid "commercial" 800)) t0 pre
    refine ⟨sfx, by rw [hb, h1], ?_, h3⟩
    intro i hi
    obtain ⟨c, hc, rest⟩ := h2 i hi
    exact ⟨c, hpool c hc, rest⟩
  have hempty : (station_media_pool orc.poolOrder db sid "commercial" 800).isEmpty = true →
      orc.shuffle (station_media_pool orc.poolOrder db sid "commercial" 800) = [] := by
    intro hpe
    rw [List.isEmpty_iff] at hpe
    rw [hpe]
    exact shuffle_nil_of_sub orc.shuffle (fun x hx => by
      have := hshuf [] x hx
      exact this)
  cases hsk : skip_leading_ident with
  | true =>
    refine ⟨[], 0, ?_⟩
    have hb : build_ident_plus_commercials_queue orc db sid target_s slop_s true
        = (queue_commercials_loop (max 0 target_s + slop_s)
            (orc.shuffle (station_media_pool orc.poolOrder db sid "commercial" 800))
            0 []).1 := by
      by_cases hpe : (station_media_pool orc.poolOrder db sid "commercial" 800).isEmpty = true
      · rw [hempty hpe]
        simp [build_ident_plus_commercials_queue, hpe, queue_commercials_loop]
      · simp [build_ident_plus_commercials_queue, hpe]
    obtain ⟨cq, hq1, hq2, hq3⟩ := hmain [] 0 (by rw [hsk]; exact hb)
    rw [hsk] at hq1
    exact ⟨cq, hq1, Or.inl ⟨rfl, rfl⟩, hq2, hq3⟩
  | false =>
    cases hpi : random_station_media orc.pickIdent db sid "ident" with
    | none =>
      refine ⟨[], 0, ?_⟩
      have hb : build_ident_plus_commercials_queue orc db sid target_s slop_s false
          = (queue_commercials_loop (max 0 target_s + slop_s)
              (orc.shuffle (station_media_pool orc.poolOrder db sid "commercial" 800))
              0 []).1 := by
        by_cases hpe : (station_media_pool orc.poolOrder db sid "commercial" 800).isEmpty = true
        · rw [hempty hpe]
          simp [build_ident_plus_commercials_queue, hpe, hpi, queue_commercials_loop]
        · simp [build_ident_plus_commercials_queue, hpe, hpi]
      obtain ⟨cq, hq1, hq2, hq3⟩ := hmain [] 0 (by rw [hsk]; exact hb)
      rw [hsk] at hq1
      exact ⟨cq, hq1, Or.inl ⟨rfl, rfl⟩, hq2, hq3⟩
    | some ident =>
      refine ⟨[ident.id], ident.duration_s.getD 0, ?_⟩
      have hb : build_ident_plus_commercials_queue orc db sid target_s slop_s false
          = (queue_commercials_loop (max 0 target_s + slop_s)
              (orc.shuffle (station_media_pool orc.poolOrder db sid "commercial" 800))
              (ident.duration_s.getD 0) [ident.id]).1 := by
        by_cases hpe : (station_media_pool orc.poolOrder db sid "commercial" 800).isEmpty = true
        · rw [hempty hpe]
          simp [build_ident_plus_commercials_queue, hpe, hpi, queue_commercials_loop]
        · simp [build_ident_plus_commercials_queue, hpe, hpi]
      obtain ⟨cq, hq1, hq2, hq3⟩ := hmain [ident.id] (ident.duration_s.getD 0)
        (by rw [hsk]; exact hb)
      rw [hsk] at hq1
      have hmem : ident ∈ station_media_candidates db sid "ident" := by
        have hpi2 := hpi
        simp only [random_station_media] at hpi2
        exact hpick _ _ hpi2
      exact ⟨cq, hq1, Or.inr ⟨rfl, ident, rfl, hmem, rfl, rfl⟩, hq2, hq3⟩


/-- A store whose only media row is a 10 s ident linked to station 1; no
commercials at all. -/
def dbB : DB :=
  { media := [{ id := 5, path := "/idents/a.mp3", kind := "ident",
                duration_s := some 10 }]
    station_media := [(1, 5)]
    stations := [("KB", 1)]
    station_state := []
    plays := [] }

/-- C5 counterexample: called with `target_s = 0` and `slop_s = 0` the builder
still prepends the random ident without any budget check, so the returned
queue `[5]` has total duration 10 s although `target_s + slop_s = 0`; the
claimed bound "total duration at most target_s + slop_s" fails. -/
theorem builder_exceeds_budget_cex :
    build_ident_plus_commercials_queue headOracles dbB 1 0 0 false = [5] ∧
    (media_by_id dbB 5).bind (fun m => m.duration_s) = some 10 ∧
    (0 : ℚ) + 0 = 0 ∧ ¬ ((10 : ℚ) ≤ 0) :=
  ⟨by decide, by decide, by norm_num, by decide⟩

/-- C5 witness: the amended builder theorem applied to the `dbB` store with
head-of-list randomness. -/
theorem build_queue_spec_witness :
    ∃ pre t0 cq,
      build_ident_plus_commercials_queue headOracles dbB 1 3 2 false
        = pre ++ cq ∧
      ((pre = ([] : List ℤ) ∧ t0 = (0 : ℚ)) ∨
        (false = false ∧ ∃ ident,
          random_station_media headOracles.pickIdent dbB 1 "ident" = some ident ∧
          ident ∈ station_media_candidates dbB 1 "ident" ∧
          pre = [ident.id] ∧ t0 = ident.duration_s.getD 0)) ∧
      (∀ i ∈ cq, ∃ c, c ∈ station_media_candidates dbB 1 "commercial" ∧
          c.id = i ∧ mkRat 1 10 < c.duration_s.getD 0) ∧
      (queue_commercials_loop (max 0 3 + 2)
          (headOracles.shuffle (station_media_pool headOracles.poolOrder dbB 1 "commercial" 800))
          t0 pre).2
        ≤ max t0 (max 0 3 + 2) :=
  build_queue_spec headOracles dbB 1 3 2 false
    (by
      intro l r h
      simp only [headOracles] at h
      cases l with
      | nil => cases h
      | cons a t =>
        simp only [List.head?_cons, Option.some.injEq] at h
        rw [← h]
        exact List.mem_cons_self a t)
    (by intro l x h; simpa [headOracles] using h)
    (by intro l x h; simpa [headOracles] using h)

/-! ## api.py — `_build_now_playing` and `_get_status` (C10) -/

/-- The `now_playing` JSON an API response carries: the bare
`\x7b"type": "noise"\x7d` object, or the full seven-key object. -/
inductive NPJson where
  | noise
  | item (typ : SqlV) (artist title : Option String)
      (started_at ends_at duration_s elapsed_s : Option ℚ)
deriving Repr, DecidableEq

/-- Python `float(v) if v is not None else None` on a column value. -/
def optFloat : SqlV → Except String (Option ℚ)
  | .null => .ok none
  | .real q => .ok (some q)
  | .int n => .ok (some (n : ℚ))
  | _ => .error "ValueError: float()"

/-- `api._build_now_playing` (the 3-decimal float rounding of `elapsed_s` is
the abstract parameter `round3`). -/
def build_now_playing (db : DB) (round3 : ℚ → ℚ) (now : ℚ) (row : Option Row) :
    Except String NPJson := do
  match row with
  | none => return .noise
  | some r =>
    let kv ← rowGet r "kind"
    if kv == .text "noise" then
      return .noise
    else
      let cmid ← rowGet r "current_media_id"
      let media_row ← (match cmid with
        | .null => Except.ok (none : Option MediaRow)
        | .int n => Except.ok (media_by_id db n)
        | .real q => Except.ok (media_by_id db (pyInt q))
        | _ => Except.error "ValueError: int()")
      let sv ← rowGet r "started_ts"
      let started_at ← optFloat sv
      let ev ← rowGet r "ends_ts"
      let ends_at ← optFloat ev
      let dv ← rowGet r "duration_s"
      let duration_s ← optFloat dv
      return .item kv (media_row.bind (fun m => m.artist))
        (media_row.bind (fun m => m.title))
        started_at ends_at duration_s
        (started_at.map (fun s => round3 (now - s)))

/-- One `/status` response body (`frequency`, `station`, `tuned`,
`now_playing`). -/
structure ApiStatus where
  frequency : ℚ
  station : Option String
  tuned : Bool
  now_playing : Option NPJson
deriving Repr, DecidableEq

/-- `api._get_status`: the station-specific form (`station` query parameter
given; 404 for an unknown name, `now_playing: null` when `helpers.station_id`
raises) and the current-tuning form (`now_playing: null` when not tuned or
when `station_id` raises). -/
def get_status (db : DB) (round3 : ℚ → ℚ) (now : ℚ)
    (station_cfgs : List (String × StationConfig))
    (dial_freq : ℚ) (current_station : Option String) (base_music_vol : ℤ)
    (station : Option String) : Except String ApiStatus :=
  match station with
  | some name =>
    match station_cfgs.find? (fun p => p.1 == name) with
    | none => .error ("HTTPException 404: Station not found: " ++ name)
    | some p =>
      let tuned := (current_station == some name) && decide (0 < base_music_vol)
      match station_id db name with
      | none => .ok { frequency := p.2.freq, station := some name,
                      tuned := tuned, now_playing := none }
      | some sid =>
        (build_now_playing db round3 now (get_station_state db sid)).map
          (fun np => { frequency := p.2.freq, station := some name,
                       tuned := tuned, now_playing := some np })
  | none =>
    let tuned := decide (0 < base_music_vol) && current_station.isSome
    if tuned then
      match current_station with
      | some cs =>
        match station_id db cs with
        | none => .ok { frequency := dial_freq, station := current_station,
                        tuned := tuned, now_playing := none }
        | some sid =>
          (build_now_playing db round3 now (get_station_state db sid)).map
            (fun np => { frequency := dial_freq, station := current_station,
                         tuned := tuned, now_playing := some np })
      | none => .ok { frequency := dial_freq, station := none,
                      tuned := tuned, now_playing := none }
    else
      .ok { frequency := dial_freq, station := current_station,
            tuned := tuned, now_playing := none }


/-- `Except.map` on a success. -/
theorem ok_map {α β : Type} (f : α → β) (a : α) :
    (Except.ok a : Except String α).map f = .ok (f a) := rfl

/-- `Except.map` on a failure. -/
theorem error_map {α β : Type} (f : α → β) (e : String) :
    (Except.error e : Except String α).map f = .error e := rfl

/-- C10: in the station-specific `/status` form, a known station whose
`station_state` table has no row yet gets `now_playing = \x7b"type": "noise"\x7d`
(the `.noise` value), not null; and across both query forms a successful
response carries `now_playing = null` only when the dial-status form is not
tuned or the queried/current station is absent from the `stations` table. -/
theorem api_now_playing_noise_vs_null (db : DB) (round3 : ℚ → ℚ) (now : ℚ)
    (station_cfgs : List (String × StationConfig))
    (dial_freq : ℚ) (current_station : Option String) (base_music_vol : ℤ) :
    (∀ name p sid,
      station_cfgs.find? (fun q => q.1 == name) = some p →
      station_id db name = some sid →
      state_of db sid = none →
      ∃ st, get_status db round3 now station_cfgs dial_freq current_station
              base_music_vol (some name) = .ok st ∧
        st.now_playing = some NPJson.noise) ∧
    (∀ q st,
      get_status db round3 now station_cfgs dial_freq current_station
          base_music_vol q = .ok st →
      st.now_playing = none →
      ((∃ name, q = some name ∧ station_id db name = none) ∨
       (q = none ∧ (st.tuned = false ∨
          ∃ cs, current_station = some cs ∧ station_id db cs = none)))) := by
  constructor
  · intro name p sid h1 h2 h3
    have hgss : get_station_state db sid = none := by
      rw [get_station_state, h3]
      rfl
    have hbn : build_now_playing db round3 now (get_station_state db sid)
        = .ok NPJson.noise := by
      rw [hgss]
      rfl
    refine ⟨{ frequency := p.2.freq, station := some name,
              tuned := (current_station == some name) && decide (0 < base_music_vol),
              now_playing := some NPJson.noise }, ?_, rfl⟩
    simp only [get_status, h1, h2, hbn, ok_map]
  · intro q st hok hnone
    cases q with
    | some name =>
      simp only [get_status] at hok
      cases hfind : station_cfgs.find? (fun p => p.1 == name) with
      | none =>
        simp [hfind] at hok
      | some p =>
        simp only [hfind] at hok
        cases hsid : station_id db name with
        | none =>
          exact Or.inl ⟨name, rfl, hsid⟩
        | some sid =>
          simp only [hsid] at hok
          cases hbn : build_now_playing db round3 now (get_station_state db sid) with
          | error e =>
            simp [hbn, error_map] at hok
          | ok np =>
            simp only [hbn, ok_map, Except.ok.injEq] at hok
            rw [← hok] at hnone
            simp at hnone
    | none =>
      simp only [get_status] at hok
      by_cases htd : (decide (0 < base_music_vol) && current_station.isSome) = true
      · rw [if_pos htd] at hok
        cases hcs : current_station with
        | none =>
          rw [hcs] at htd
          simp at htd
        | some cs =>
          simp only [hcs] at hok
          cases hsid : station_id db cs with
          | none =>
            exact Or.inr ⟨rfl, Or.inr ⟨cs, rfl, hsid⟩⟩
          | some sid =>
            simp only [hsid] at hok
            cases hbn : build_now_playing db round3 now (get_station_state db sid) with
            | error e =>
              simp [hbn, error_map] at hok
            | ok np =>
              simp only [hbn, ok_map, Except.ok.injEq] at hok
              rw [← hok] at hnone
              simp at hnone
      · rw [if_neg htd] at hok
        simp only [Except.ok.injEq] at hok
        refine Or.inr ⟨rfl, Or.inl ?_⟩
        rw [← hok]
        simpa using htd

end Radio
